import Mathlib

/-!
A shallow embedding of the tool-spec-converter repository
(analysis pipeline, citation/license handling, unified-metadata builder and
the metadata exporters), together with theorems settling the specification
claims about it.

Conventions of the embedding:
* TypeScript strings are Lean `String`; `null`/`undefined` optional fields are
  `Option`; JavaScript truthiness of an optional string (absent or `""` is
  falsy) is made explicit via `strTruthy` / `orStr`.
* Code that can throw is embedded in `Except String` (the `String` is the
  thrown error's message); a `try/catch` becomes a `match` on that value.
* External collaborators (the GitHub fetch transport, the citation-js `Cite`
  constructor, the js-yaml `load`/`dump` functions, `new Date(...)` parsing,
  and the tool-spec validator, whose source file is not part of the analyzed
  sources) are oracle functions carried in an environment record; the embedded
  code is parametric in them, exactly as the repository treats them as
  injected capabilities.
* Wall-clock durations (`Date.now()` deltas on `CheckResult.duration`) and
  `console.log` output are outside the embedding; no claim concerns them.
-/

/-! ## JavaScript-style string and truthiness utilities -/

/-- Char-wise lower-casing, embedding `String.prototype.toLowerCase` on the
ASCII range used by the repository. -/
def jsToLowerCase (s : String) : String :=
  String.mk (s.data.map Char.toLower)

/-- Char-wise upper-casing, embedding `String.prototype.toUpperCase` on the
ASCII range used by the repository. -/
def jsToUpperCase (s : String) : String :=
  String.mk (s.data.map Char.toUpper)

/-- The JS string trim, kernel-computable: strip whitespace from both
ends. -/
def jsTrim (s : String) : String :=
  String.mk (((s.data.dropWhile Char.isWhitespace).reverse.dropWhile
    Char.isWhitespace).reverse)

/-- Does `pat` occur as a contiguous sublist at the head of `l`? -/
def startsWithList : List Char → List Char → Bool
  | [], _ => true
  | _ :: _, [] => false
  | a :: as, b :: bs => a == b && startsWithList as bs

/-- Does `pat` occur as a contiguous sublist anywhere in `l`? -/
def containsList (pat : List Char) : List Char → Bool
  | [] => startsWithList pat []
  | c :: rest => startsWithList pat (c :: rest) || containsList pat rest

/-- Embeds `String.prototype.includes`: does `s` contain `sub`? -/
def strIncludes (s sub : String) : Bool :=
  containsList sub.data s.data

/-- JavaScript truthiness of an optional string: absent and `""` are falsy. -/
def strTruthy : Option String → Bool
  | none => false
  | some s => s ≠ ""

/-- Embeds `a || b` where `a` is an optional/nullable string. -/
def orStr (a : Option String) (b : String) : String :=
  match a with
  | some s => if s = "" then b else s
  | none => b

/-- Embeds `a || b` for two optional strings (result may still be absent). -/
def orStrOpt (a b : Option String) : Option String :=
  if strTruthy a then a else b

/-- `if warnings.length > 0 then warnings.join('; ') else undefined`,
the way check executors fold warning/error lists into one field. -/
def joinedOpt (l : List String) : Option String :=
  if l.isEmpty then none else some (String.intercalate "; " l)

/-! ## Citation parser and license comparison (citation-cff-parser source) -/

/-- License value as it appears at runtime: CFF `license` may be a string or
an array of strings. -/
inductive LicenseVal where
  | one (s : String)
  | many (l : List String)
  deriving Repr, DecidableEq

/-- `normalizeLicense`: lowercase, strip non-alphanumerics (the second
`replace(/\s+/g, '')` is a no-op after the first strip, kept implicitly). -/
def normalizeLicense (license : String) : String :=
  String.mk ((jsToLowerCase license).data.filter (fun c => c.isLower || c.isDigit))

/-- Result of `compareLicenses`. -/
structure LicenseComparison where
  areCompatible : Bool
  warnings : List String
  deriving Repr, DecidableEq

/-- The fixed license-family list scanned (in order) over the LICENSE text. -/
def commonLicenses : List String :=
  ["mit", "apache", "gpl", "bsd", "mozilla", "eclipse", "unlicense", "cc0"]

/-- Truthiness of the optional string-or-array license value (an array is
truthy even when empty). -/
def licTruthy : Option LicenseVal → Bool
  | none => false
  | some (.one s) => s ≠ ""
  | some (.many _) => true

/-- `compareLicenses(cffLicense, licenseFileContent)`.  The first argument is
the CFF license value (absent, string, or string array) whose presence the
source tests by JS truthiness (`!cffLicense`: absent and `""` are falsy, an
array is truthy even when empty); the second is the LICENSE file text, where
the absent/`undefined` case of the source is the falsy `""` (the code only
ever tests its truthiness before use). -/
def compareLicenses (cffLicense : Option LicenseVal) (licenseFileContent : String) :
    LicenseComparison :=
  if ¬ licTruthy cffLicense ∧ licenseFileContent = "" then
    ⟨true, ["No license information found in either CITATION.cff or LICENSE file"]⟩
  else if ¬ licTruthy cffLicense then
    ⟨true, ["No license specified in CITATION.cff, but LICENSE file is present"]⟩
  else if licenseFileContent = "" then
    ⟨true, ["License specified in CITATION.cff, but no LICENSE file found in repository"]⟩
  else
    let cffLicenses : List String :=
      match cffLicense with
      | some (.many l) => l
      | some (.one s) => [s]
      | none => []
    let normalizedCffLicenses := cffLicenses.map normalizeLicense
    let licenseFileLower := jsToLowerCase licenseFileContent
    let detectedLicense := (commonLicenses.find? (fun l => strIncludes licenseFileLower l)).getD ""
    if detectedLicense = "" then
      ⟨true, ["Could not detect license type from LICENSE file content"]⟩
    else
      let normalizedFileLicense := normalizeLicense detectedLicense
      let areCompatible := normalizedCffLicenses.any (fun cff =>
        strIncludes cff normalizedFileLicense || strIncludes normalizedFileLicense cff)
      if areCompatible then
        ⟨true, []⟩
      else
        ⟨false, ["License mismatch: CITATION.cff specifies \"" ++
          String.intercalate ", " cffLicenses ++
          "\" but LICENSE file appears to be \"" ++ detectedLicense ++ "\""]⟩

/-! ## Permissive JavaScript values (the `any` results of citation-js / js-yaml) -/

/-- A dynamically-typed JavaScript value, as returned by the external parsers. -/
inductive JsVal where
  | undefined
  | null
  | bool (b : Bool)
  | num (n : Int)
  | str (s : String)
  | arr (xs : List JsVal)
  | obj (fields : List (String × JsVal))

/-- JavaScript truthiness. -/
def jsTruthy : JsVal → Bool
  | .undefined => false
  | .null => false
  | .bool b => b
  | .num n => n ≠ 0
  | .str s => s ≠ ""
  | .arr _ => true
  | .obj _ => true

/-- `v && typeof v === 'object'`: a truthy value of object type (array or
plain object; `null` is falsy and scalars have a different `typeof`). -/
def jsIsObjectLike : JsVal → Bool
  | .arr _ => true
  | .obj _ => true
  | _ => false

/-- Property access `v[k]` on the shapes the repository reads after its
object checks: lookup on objects (first binding wins), `undefined` elsewhere. -/
def JsVal.get (v : JsVal) (k : String) : JsVal :=
  match v with
  | .obj fields => match fields.find? (fun p => p.1 == k) with
    | some p => p.2
    | none => .undefined
  | _ => .undefined

/-- `String(v)` coercion (arrays join their stringified elements with `,`). -/
def jsToString : JsVal → String
  | .undefined => "undefined"
  | .null => "null"
  | .bool b => if b then "true" else "false"
  | .num n => toString n
  | .str s => s
  | .arr xs => String.intercalate "," (xs.attach.map (fun x => jsToString x.1))
  | .obj _ => "[object Object]"
decreasing_by
  have h := List.sizeOf_lt_of_mem x.2
  simp_wf
  omega

/-- Truthiness-preserving coercion of a dynamic field into a typed
`Option String` slot: falsy values become `none`, strings stay, other truthy
values are kept via `String(v)`. -/
def jsOptStrTruthy (v : JsVal) : Option String :=
  match v with
  | .str s => if s = "" then some "" else some s
  | .undefined => none
  | .null => none
  | v => if jsTruthy v then some (jsToString v) else none

/-- A truthy non-empty array (`v && Array.isArray(v) && v.length !== 0`). -/
def jsNonEmptyArray : JsVal → Bool
  | .arr xs => xs.length != 0
  | _ => false

/-- A truthy string-typed value (`v && typeof v === 'string'` style checks). -/
def jsTruthyString : JsVal → Bool
  | .str s => s ≠ ""
  | _ => false

/-- Dynamic CFF `license` field into the typed string-or-array shape. -/
def jsToLicense (v : JsVal) : Option LicenseVal :=
  match v with
  | .str s => some (.one s)
  | .arr xs => some (.many (xs.map jsToString))
  | .undefined => none
  | .null => none
  | v => if jsTruthy v then some (.one (jsToString v)) else none

/-- Dynamic keyword-list field into a typed optional string list. -/
def jsToStrList (v : JsVal) : Option (List String) :=
  match v with
  | .arr xs => some (xs.map jsToString)
  | _ => none

/-! ## CITATION.cff data model and parser -/

/-- An author in the repository's internal CFF shape. -/
structure CitationAuthor where
  givenNames : Option String := none
  familyNames : Option String := none
  name : Option String := none
  orcid : Option String := none
  email : Option String := none
  affiliation : Option String := none
  deriving Repr, DecidableEq

/-- The repository's internal `CitationCff` record.  `preferredCitation` and
`identifiers` are carried through verbatim as dynamic values, exactly as the
source stores them without ever reading them again. -/
structure CitationCff where
  cffVersion : Option String := none
  message : Option String := none
  authors : List CitationAuthor := []
  title : String := ""
  version : Option String := none
  dateReleased : Option String := none
  url : Option String := none
  repository : Option String := none
  repositoryCode : Option String := none
  license : Option LicenseVal := none
  keywords : Option (List String) := none
  abstract : Option String := none
  preferredCitation : JsVal := .undefined
  identifiers : JsVal := .undefined

/-- Result record of both citation parse paths. -/
structure CitationCffValidationResult where
  isValid : Bool
  citationCff : Option CitationCff
  errors : List String
  warnings : List String

/-- Abstracted message of the `TypeError` the JS engine throws when the
conversion step calls a method of a non-array or indexes a non-value; the
repository only ever surfaces `error.message`, and no claim depends on the
engine's exact wording. -/
def jsTypeErrorMessage : String := "TypeError"

/-- `(v || []).map(author mapping)`: arrays map, falsy values give `[]`, a
truthy non-array has no `.map` and throws. -/
def jsMapAuthors (v : JsVal) (f : JsVal → CitationAuthor) :
    Except String (List CitationAuthor) :=
  match v with
  | .arr xs => .ok (xs.map f)
  | v => if jsTruthy v then .error jsTypeErrorMessage else .ok []

/-- `issued ? issued['date-parts'][0].join('-') : undefined` — succeeds only
when `issued` is falsy or carries a `date-parts` array whose head is itself an
array; every other truthy shape throws inside the try block. -/
def datePartsJoin (issued : JsVal) : Except String (Option String) :=
  if jsTruthy issued then
    match issued.get "date-parts" with
    | .arr (.arr parts :: _) =>
      .ok (some (String.intercalate "-" (parts.map jsToString)))
    | _ => .error jsTypeErrorMessage
  else
    .ok none

/-- Per-author structural errors of the primary (citation-js) path, in index
order. -/
def primaryAuthorErrors (xs : List JsVal) : List String :=
  (xs.enum.map (fun p =>
    if ¬ jsIsObjectLike p.2 then
      ["Author at index " ++ toString p.1 ++ " must be an object"]
    else if ¬ (jsTruthy (p.2.get "literal")) ∧
        ¬ (jsTruthy (p.2.get "given")) ∧ ¬ (jsTruthy (p.2.get "family")) then
      ["Author at index " ++ toString p.1 ++
        " must have either \"literal\" or \"given\"/\"family\""]
    else [])).flatten

/-- citation-js author object into the internal author shape. -/
def primaryAuthor (a : JsVal) : CitationAuthor :=
  { givenNames := jsOptStrTruthy (a.get "given")
    familyNames := jsOptStrTruthy (a.get "family")
    name := jsOptStrTruthy (a.get "literal")
    orcid := jsOptStrTruthy (a.get "ORCID")
    email := jsOptStrTruthy (a.get "email")
    affiliation := jsOptStrTruthy (a.get "affiliation") }

/-- The primary parse path's validation and conversion of `cite.data[0]`;
errors and warnings accumulated before the conversion step survive into the
catch's result when the conversion throws. -/
def parseCitationCffPrimary (parsed : JsVal) : CitationCffValidationResult :=
  if ¬ (jsTruthy parsed ∧ jsIsObjectLike parsed) then
    ⟨false, none, ["Invalid CITATION.cff: Could not parse content"], []⟩
  else
    let authorVal := parsed.get "author"
    let errors :=
      (if jsTruthy (parsed.get "title") then []
       else ["Missing required field: \"title\""]) ++
      (if jsNonEmptyArray authorVal then []
       else ["Missing required field: \"author\" (must be a non-empty array)"]) ++
      (match authorVal with | .arr xs => primaryAuthorErrors xs | _ => [])
    let warnings :=
      (if jsTruthy (parsed.get "issued") then []
       else ["Field \"issued\" (date) is missing (recommended for proper citation)"]) ++
      (if jsTruthy (parsed.get "license") then []
       else ["Field \"license\" is missing (recommended for proper citation)"]) ++
      (if jsTruthy (parsed.get "URL") ∨ jsTruthy (parsed.get "repository") then []
       else ["Neither \"URL\" nor \"repository\" field is present (recommended for proper citation)"])
    match jsMapAuthors authorVal primaryAuthor with
    | .error e =>
      ⟨false, none, errors ++ ["CITATION.cff parsing error: " ++ e], warnings⟩
    | .ok authors =>
      match datePartsJoin (parsed.get "issued") with
      | .error e =>
        ⟨false, none, errors ++ ["CITATION.cff parsing error: " ++ e], warnings⟩
      | .ok dateReleased =>
        let cff : CitationCff :=
          { cffVersion := jsOptStrTruthy (parsed.get "cff-version")
            message := jsOptStrTruthy (parsed.get "message")
            authors := authors
            title := (jsOptStrTruthy (parsed.get "title")).getD ""
            version := jsOptStrTruthy (parsed.get "version")
            dateReleased := dateReleased
            url := jsOptStrTruthy (parsed.get "URL")
            repository := jsOptStrTruthy (parsed.get "repository")
            repositoryCode := jsOptStrTruthy (parsed.get "repository-code")
            license := jsToLicense (parsed.get "license")
            keywords := jsToStrList (parsed.get "keyword")
            abstract := jsOptStrTruthy (parsed.get "abstract")
            preferredCitation := parsed.get "preferred-citation"
            identifiers := parsed.get "identifier" }
        ⟨errors.isEmpty, some cff, errors, warnings⟩

/-- Per-author structural errors of the manual fallback path. -/
def manualAuthorErrors (xs : List JsVal) : List String :=
  (xs.enum.map (fun p =>
    if ¬ jsIsObjectLike p.2 then
      ["Author at index " ++ toString p.1 ++ " must be an object"]
    else if ¬ (jsTruthy (p.2.get "name")) ∧
        ¬ (jsTruthy (p.2.get "given-names")) ∧
        ¬ (jsTruthy (p.2.get "family-names")) then
      ["Author at index " ++ toString p.1 ++
        " must have either \"name\" or \"given-names\"/\"family-names\""]
    else [])).flatten

/-- Raw-YAML author object into the internal author shape. -/
def manualAuthor (a : JsVal) : CitationAuthor :=
  { givenNames := jsOptStrTruthy (a.get "given-names")
    familyNames := jsOptStrTruthy (a.get "family-names")
    name := jsOptStrTruthy (a.get "name")
    orcid := jsOptStrTruthy (a.get "orcid")
    email := jsOptStrTruthy (a.get "email")
    affiliation := jsOptStrTruthy (a.get "affiliation") }

/-- The manual fallback's validation and conversion of the loaded YAML
value (the part of `parseCitationCffManually` after a successful `load`). -/
def parseCitationCffManualBody (parsed : JsVal) : CitationCffValidationResult :=
  if ¬ (jsTruthy parsed ∧ jsIsObjectLike parsed) then
    ⟨false, none, ["Invalid YAML: Root must be an object"], []⟩
  else
      let authorsVal := parsed.get "authors"
      let errors :=
        (if jsTruthyString (parsed.get "title") then []
         else ["Missing required field: \"title\""]) ++
        (if jsNonEmptyArray authorsVal then []
         else ["Missing required field: \"authors\" (must be a non-empty array)"]) ++
        (match authorsVal with | .arr xs => manualAuthorErrors xs | _ => [])
      let warnings :=
        (if jsTruthy (parsed.get "version") then []
         else ["Field \"version\" is missing (recommended for proper citation)"]) ++
        (if jsTruthy (parsed.get "date-released") then []
         else ["Field \"date-released\" is missing (recommended for proper citation)"]) ++
        (if jsTruthy (parsed.get "license") then []
         else ["Field \"license\" is missing (recommended for proper citation)"]) ++
        (if jsTruthy (parsed.get "url") ∨ jsTruthy (parsed.get "repository-code") then []
         else ["Neither \"url\" nor \"repository-code\" field is present (recommended for proper citation)"])
      match jsMapAuthors authorsVal manualAuthor with
      | .error e =>
        ⟨false, none, errors ++ ["Manual parsing error: " ++ e], warnings⟩
      | .ok authors =>
        let cff : CitationCff :=
          { cffVersion := jsOptStrTruthy (parsed.get "cff-version")
            message := jsOptStrTruthy (parsed.get "message")
            authors := authors
            title := (jsOptStrTruthy (parsed.get "title")).getD ""
            version := jsOptStrTruthy (parsed.get "version")
            dateReleased := jsOptStrTruthy (parsed.get "date-released")
            url := jsOptStrTruthy (parsed.get "url")
            repository := jsOptStrTruthy (parsed.get "repository-code")
            repositoryCode := jsOptStrTruthy (parsed.get "repository-code")
            license := jsToLicense (parsed.get "license")
            keywords := jsToStrList (parsed.get "keywords")
            abstract := jsOptStrTruthy (parsed.get "abstract")
            preferredCitation := parsed.get "preferred-citation"
            identifiers := parsed.get "identifiers" }
        ⟨errors.isEmpty, some cff, errors, warnings⟩

/-- `parseCitationCffManually`: the fallback parser over the raw YAML value.
`yamlLoad` is the external js-yaml `load`, throwing with a message. -/
def parseCitationCffManually (yamlLoad : String → Except String JsVal)
    (yamlContent : String) : CitationCffValidationResult :=
  match yamlLoad yamlContent with
  | .error e => ⟨false, none, ["Manual parsing error: " ++ e], []⟩
  | .ok parsed => parseCitationCffManualBody parsed

/-- `parseCitationCff`: the primary citation-js path with manual fallback.
`citeParse` is the external `new Cite(...)` capability: `none` models the
constructor throwing, `some v` the value `cite.data[0]` (possibly
`undefined`). -/
def parseCitationCff (citeParse : String → Option JsVal)
    (yamlLoad : String → Except String JsVal)
    (yamlContent : String) : CitationCffValidationResult :=
  match citeParse yamlContent with
  | none => parseCitationCffManually yamlLoad yamlContent
  | some parsed => parseCitationCffPrimary parsed

/-! ## Repository info and tool-spec data model -/

/-- Structured repository descriptor returned by `validateRepoExists`. -/
structure GitHubRepoInfo where
  owner : String
  name : String
  fullName : String
  description : Option String
  language : Option String
  stars : Nat
  createdAt : String
  updatedAt : String
  cloneUrl : String
  htmlUrl : String
  deriving Repr, DecidableEq

/-- A printable default value of a parameter (`String(default)` rendering). -/
inductive JsPrim where
  | str (s : String)
  | num (n : Int)
  | bool (b : Bool)
  deriving Repr, DecidableEq

/-- `String(v)` for a primitive default value. -/
def JsPrim.render : JsPrim → String
  | .str s => s
  | .num n => toString n
  | .bool b => if b then "true" else "false"

/-- A tool-spec parameter definition.  `type` is kept as the runtime string
the exporters switch on; `array`/`optional` model the truthiness of the
optional boolean fields; numeric `min`/`max` appear in the sources only
interpolated into markup. -/
structure ToolSpecParameter where
  type : String
  values : Option (List String) := none
  description : Option String := none
  array : Bool := false
  min : Option Int := none
  max : Option Int := none
  optional : Bool := false
  default : Option JsPrim := none
  deriving Repr, DecidableEq

/-- A tool-spec data item (mapping form). -/
structure ToolSpecDataItem where
  description : Option String := none
  «example» : Option String := none
  extension : Option LicenseVal := none
  deriving Repr, DecidableEq

/-- The `data` section: either a plain list of names or a name→item mapping
(insertion-ordered, like the JS object). -/
inductive ToolSpecDataField where
  | names (l : List String)
  | items (l : List (String × ToolSpecDataItem))
  deriving Repr, DecidableEq

/-- The validated tool-spec record consumed by the pipeline (the validator
itself lives in a source file outside the analyzed set and is treated as an
oracle producing this shape). -/
structure ToolSpec where
  title : String
  description : String
  parameters : Option (List (String × ToolSpecParameter)) := none
  data : Option ToolSpecDataField := none
  deriving Repr, DecidableEq

/-- Result record of the (external) tool-spec validator. -/
structure ToolSpecValidationResult where
  isValid : Bool
  toolSpec : Option ToolSpec
  errors : List String
  warnings : List String
  deriving Repr, DecidableEq

/-! ## Unified metadata (unified-metadata source) -/

/-- Author shape of the unified record (same fields as `CitationAuthor`). -/
abbrev Author := CitationAuthor

/-- License block of the unified record. -/
structure LicenseInfo where
  license : Option LicenseVal
  licenseFileExists : Bool
  licenseFileContent : Option String
  licenseCompatibility : LicenseComparison
  deriving Repr, DecidableEq

/-- Citation block of the unified record. -/
structure CitationData where
  title : String
  authors : List Author
  version : Option String := none
  dateReleased : Option String := none
  url : Option String := none
  repository : Option String := none
  license : Option LicenseVal := none
  keywords : Option (List String) := none
  abstract : Option String := none
  deriving Repr, DecidableEq

/-- A Galaxy output definition. -/
structure GalaxyOutput where
  name : String
  label : String
  format : String
  description : Option String := none
  deriving Repr, DecidableEq

/-- Galaxy per-export configuration. -/
structure GalaxyExportConfig where
  command : Option String := none
  interpreter : Option String := none
  container : Option String := none
  containerVersion : Option String := none
  outputs : List GalaxyOutput := []
  profile : Option String := none
  deriving Repr, DecidableEq

/-- A CWL output definition. -/
structure CwlOutput where
  name : String
  type : String
  glob : String
  label : Option String := none
  doc : Option String := none
  deriving Repr, DecidableEq

/-- CWL per-export configuration. -/
structure CwlExportConfig where
  cwlVersion : String := "v1.2"
  outputs : List CwlOutput := []
  baseCommand : Option String := none
  container : Option String := none
  deriving Repr, DecidableEq

/-- Tool-spec block of the unified record. -/
structure ToolSpecData where
  title : String
  description : String
  parameters : Option (List (String × ToolSpecParameter))
  data : Option ToolSpecDataField
  deriving Repr, DecidableEq

/-- The canonical unified software-metadata record. -/
structure UnifiedSoftwareMetadata where
  name : String
  description : String
  version : String
  authors : List Author
  maintainers : List Author
  repository : GitHubRepoInfo
  license : LicenseInfo
  programmingLanguage : String
  keywords : List String
  toolSpec : ToolSpecData
  citation : CitationData
  generatedAt : String
  generator : String
  generatorVersion : String
  galaxyConfig : Option GalaxyExportConfig
  deriving Repr, DecidableEq

/-- The license data stored by the license check (`licenseCheck?.data || {}`:
`none` is the empty-object default whose fields all read back falsy). -/
structure LicenseCheckData where
  licenseExists : Bool
  licenseFileLength : Nat
  licenseComparison : LicenseComparison
  deriving Repr, DecidableEq

/-- The JS duplicate-removal idiom
`array.filter((x, i, a) => a.indexOf(x) === i)`: keep each element at the
index of its first occurrence. -/
def jsDedup (l : List String) : List String :=
  (l.enum.filter (fun p => l.indexOf p.2 = p.1)).map Prod.snd

/-- `createUnifiedMetadata(repoInfo, toolSpec, citationCff, licenseInfo,
dockerfileCmd?, repositoryVersion?)`.  `nowIso` models
`new Date().toISOString()`. -/
def createUnifiedMetadata (repoInfo : GitHubRepoInfo) (toolSpec : ToolSpec)
    (citationCff : Option CitationCff) (licenseInfo : Option LicenseCheckData)
    (dockerfileCmd : Option String) (repositoryVersion : Option String)
    (nowIso : String) : UnifiedSoftwareMetadata :=
  let authors : List Author := match citationCff with
    | some c => c.authors
    | none => []
  let keywords := jsDedup (
    (if toolSpec.parameters.isSome then ["tool-spec"] else []) ++
    (match citationCff with
     | some c => c.keywords.getD []
     | none => []) ++
    (match repoInfo.language with
     | some l => if l = "" then [] else [jsToLowerCase l]
     | none => []))
  let version := orStr repositoryVersion (orStr (citationCff.bind (·.version)) "latest")
  let license : LicenseInfo :=
    { license := match citationCff with
        | some c => c.license
        | none => none
      licenseFileExists := match licenseInfo with
        | some li => li.licenseExists
        | none => false
      licenseFileContent := match licenseInfo with
        | some li => if li.licenseFileLength > 0 then some "Present" else none
        | none => none
      licenseCompatibility := match licenseInfo with
        | some li => li.licenseComparison
        | none => ⟨true, []⟩ }
  { name := if toolSpec.title = "" then repoInfo.name else toolSpec.title
    description := if toolSpec.description = "" then orStr repoInfo.description ""
      else toolSpec.description
    version := version
    authors := authors
    maintainers := []
    repository := repoInfo
    license := license
    programmingLanguage := orStr repoInfo.language "Unknown"
    keywords := keywords
    toolSpec :=
      { title := toolSpec.title
        description := toolSpec.description
        parameters := toolSpec.parameters
        data := toolSpec.data }
    citation :=
      { title := match citationCff with
          | some c => if c.title = "" then toolSpec.title else c.title
          | none => toolSpec.title
        authors := match citationCff with
          | some c => c.authors
          | none => []
        version := citationCff.bind (·.version)
        dateReleased := citationCff.bind (·.dateReleased)
        url := citationCff.bind (·.url)
        repository := citationCff.bind (·.repository)
        license := citationCff.bind (·.license)
        keywords := citationCff.bind (·.keywords)
        abstract := citationCff.bind (·.abstract) }
    generatedAt := nowIso
    generator := "Tool-Spec Converter"
    generatorVersion := "1.0.0"
    galaxyConfig := some
      { command := dockerfileCmd
        container := some ("ghcr.io/" ++ repoInfo.owner ++ "/" ++ repoInfo.name ++ ":latest")
        containerVersion := repositoryVersion
        outputs := []
        profile := some "24.0" } }

/-! ## JSON values and `JSON.stringify(v, null, 2)` -/

/-- A JSON value (no `undefined`: conditionally-spread fields are simply
omitted at the build sites, matching `JSON.stringify` dropping them). -/
inductive JVal where
  | str (s : String)
  | num (n : Int)
  | bool (b : Bool)
  | null
  | arr (xs : List JVal)
  | obj (fields : List (String × JVal))

/-- Left and right curly-brace strings (kept out of string literals). -/
def lbr : String := String.singleton (Char.ofNat 123)

def rbr : String := String.singleton (Char.ofNat 125)

/-- Lower-case hexadecimal digit. -/
def hexDigit (n : Nat) : Char :=
  if n < 10 then Char.ofNat (48 + n) else Char.ofNat (87 + n)

/-- JSON string escaping as performed by `JSON.stringify`. -/
def jsonEscapeChar (c : Char) : String :=
  if c = '"' then "\\\""
  else if c = '\\' then "\\\\"
  else if c = '\n' then "\\n"
  else if c = '\t' then "\\t"
  else if c = '\r' then "\\r"
  else if c = (Char.ofNat 8) then "\\b"
  else if c = (Char.ofNat 12) then "\\f"
  else if c.toNat < 32 then
    "\\u00" ++ String.mk [hexDigit (c.toNat / 16), hexDigit (c.toNat % 16)]
  else String.singleton c

/-- A JSON-quoted string. -/
def jsonQuote (s : String) : String :=
  "\"" ++ String.join (s.data.map jsonEscapeChar) ++ "\""

/-- `n` spaces. -/
def spaces (n : Nat) : String := String.mk (List.replicate n ' ')

/-- `JSON.stringify(v, null, 2)` starting at indentation `indent`. -/
def jsonStringify (v : JVal) (indent : Nat) : String :=
  match v with
  | .str s => jsonQuote s
  | .num n => toString n
  | .bool b => if b then "true" else "false"
  | .null => "null"
  | .arr [] => "[]"
  | .arr xs =>
    "[\n" ++
    String.intercalate ",\n"
      (xs.attach.map (fun x => spaces (indent + 2) ++ jsonStringify x.1 (indent + 2))) ++
    "\n" ++ spaces indent ++ "]"
  | .obj [] => lbr ++ rbr
  | .obj fields =>
    lbr ++ "\n" ++
    String.intercalate ",\n"
      (fields.attach.map (fun p =>
        spaces (indent + 2) ++ jsonQuote p.1.1 ++ ": " ++ jsonStringify p.1.2 (indent + 2))) ++
    "\n" ++ spaces indent ++ rbr
termination_by sizeOf v
decreasing_by
  · have h := List.sizeOf_lt_of_mem x.2
    simp_wf
    omega
  · have h := List.sizeOf_lt_of_mem p.2
    have h2 : sizeOf p.1.2 < sizeOf p.1 := by
      obtain ⟨a, b⟩ := p.1
      simp only [Prod.mk.sizeOf_spec]
      omega
    simp_wf
    omega

/-! ## Base exporter (base-exporter source) -/

/-- `BaseExporter.validate`: non-empty name and description, at least one
author. -/
def baseValidate (data : UnifiedSoftwareMetadata) : List String :=
  (if data.name = "" then ["Name is required"] else []) ++
  (if data.description = "" then ["Description is required"] else []) ++
  (if data.authors.isEmpty then ["At least one author is required"] else [])

/-! ## CodeMeta exporter (codemeta-exporter source) -/

/-- A conditionally-spread string field (`...(v && { k: v })`). -/
def optStrField (k : String) (v : Option String) : List (String × JVal) :=
  match v with
  | some s => if s = "" then [] else [(k, .str s)]
  | none => []

/-- CodeMeta author object. -/
def codemetaAuthorJson (author : Author) : JVal :=
  .obj ([("@type", .str "Person")] ++
    optStrField "name" author.name ++
    optStrField "givenName" author.givenNames ++
    optStrField "familyName" author.familyNames ++
    optStrField "email" author.email ++
    optStrField "affiliation" author.affiliation ++
    optStrField "@id" author.orcid)

/-- CodeMeta maintainer object (name and email only). -/
def codemetaMaintainerJson (m : Author) : JVal :=
  .obj ([("@type", .str "Person")] ++
    optStrField "name" m.name ++
    optStrField "email" m.email)

/-- `...(data.license.license && { license: first-or-value })`; an empty
license array is truthy but indexes to `undefined`, which `JSON.stringify`
drops. -/
def codemetaLicenseField (l : Option LicenseVal) : List (String × JVal) :=
  match l with
  | none => []
  | some (.one s) => if s = "" then [] else [("license", .str s)]
  | some (.many []) => []
  | some (.many (x :: _)) => [("license", .str x)]

/-- `formatSoftwareRequirements`: asset parameters with descriptions. -/
def formatSoftwareRequirements (params : List (String × ToolSpecParameter)) :
    List String :=
  params.filterMap (fun p =>
    if p.2.type = "asset" ∧ strTruthy p.2.description then
      some (p.1 ++ ": " ++ p.2.description.getD "")
    else none)

/-- Increment the count of `k` in an insertion-ordered count list. -/
def bumpCount : List (String × Nat) → String → List (String × Nat)
  | [], k => [(k, 1)]
  | (k', n) :: rest, k =>
    if k' = k then (k', n + 1) :: rest else (k', n) :: bumpCount rest k

/-- `getParameterSummary`: totals, required/optional counts, and per-type
counts in first-occurrence order. -/
def getParameterSummary (params : List (String × ToolSpecParameter)) : JVal :=
  let req := (params.filter (fun p => ¬ p.2.optional)).length
  let opt := (params.filter (fun p => p.2.optional)).length
  let types := params.foldl
    (fun acc p => bumpCount acc (if p.2.type = "" then "unknown" else p.2.type)) []
  .obj [("totalParameters", .num params.length),
    ("requiredParameters", .num req),
    ("optionalParameters", .num opt),
    ("parameterTypes", .obj (types.map (fun t => (t.1, JVal.num t.2))))]

/-- The CodeMeta document object, fields in source insertion order. -/
def codemetaJson (data : UnifiedSoftwareMetadata) : JVal :=
  .obj ([("@context", .str "https://doi.org/10.5063/schema/codemeta-2.0"),
    ("@type", .str "SoftwareSourceCode"),
    ("name", .str data.name),
    ("description", .str data.description),
    ("version", .str data.version),
    ("author", .arr (data.authors.map codemetaAuthorJson))] ++
    (if data.maintainers.length > 0 then
      [("maintainer", .arr (data.maintainers.map codemetaMaintainerJson))]
     else []) ++
    [("codeRepository", .str data.repository.htmlUrl),
     ("url", .str (orStr data.citation.url data.repository.htmlUrl)),
     ("programmingLanguage", .str data.programmingLanguage),
     ("keywords", .arr (data.keywords.map JVal.str))] ++
    codemetaLicenseField data.license.license ++
    (match data.toolSpec.parameters with
     | some ps =>
       [("softwareRequirements", .arr ((formatSoftwareRequirements ps).map JVal.str)),
        ("parameterSummary", getParameterSummary ps)]
     | none => []) ++
    optStrField "abstract" data.citation.abstract ++
    optStrField "datePublished" data.citation.dateReleased ++
    [("dateModified", .str data.generatedAt),
     ("generator", .obj [("@type", .str "SoftwareApplication"),
       ("name", .str data.generator),
       ("version", .str data.generatorVersion)])])

/-- `CodeMetaExporter.export`. -/
def codemetaExport (data : UnifiedSoftwareMetadata) : String :=
  jsonStringify (codemetaJson data) 0

/-- `CodeMetaExporter.validate`. -/
def codemetaValidate (data : UnifiedSoftwareMetadata) : List String :=
  baseValidate data ++
  (if data.repository.htmlUrl = "" then ["Repository URL is required for CodeMeta"] else [])

/-! ## Galaxy exporter (galaxy-exporter source) -/

/-- `sanitizeXml`: the five XML metacharacters, char-wise (the sequential
`replace` chain never rescans its own output, so it equals this map). -/
def sanitizeXml (text : String) : String :=
  String.join (text.data.map (fun c =>
    if c = '&' then "&amp;"
    else if c = '<' then "&lt;"
    else if c = '>' then "&gt;"
    else if c = '"' then "&quot;"
    else if c = Char.ofNat 39 then "&apos;"
    else String.singleton c))

/-- Collapse runs of `ch` into a single occurrence (`replace(/ch+/g, ch)`). -/
def squeezeChar (ch : Char) (l : List Char) : List Char :=
  l.foldr (fun a acc => if a = ch ∧ acc.head? = some ch then acc else a :: acc) []

/-- `replace(/^ch|ch$/g, '')`: strip one leading and one trailing `ch`. -/
def stripEdgeChar (ch : Char) (l : List Char) : List Char :=
  let l1 := match l with
    | c :: rest => if c = ch then rest else c :: rest
    | [] => []
  match l1.getLast? with
  | some c => if c = ch then l1.dropLast else l1
  | none => l1

/-- `GalaxyExporter.generateToolId`. -/
def galaxyToolId (repoName : String) : String :=
  let lowered := (jsToLowerCase repoName).data
  let replaced := lowered.map (fun c => if c.isLower ∨ c.isDigit then c else '_')
  String.mk (stripEdgeChar '_' (squeezeChar '_' replaced)) ++ "_v1"

/-- The regex match `/^[^.!?]+[.!?]/`: the (non-empty) run up to and
including the first sentence terminator. -/
def firstSentenceSplit (d : String) : Option String :=
  let pre := d.data.takeWhile (fun c => ¬ (c = '.' ∨ c = '!' ∨ c = '?'))
  match (d.data.drop pre.length).head? with
  | some t => if pre.isEmpty then none else some (String.mk (pre ++ [t]))
  | none => none

/-- `getShortDescription` (shared logic of the Galaxy and DOAP exporters):
first sentence, else the first 100 characters, trimmed. -/
def getShortDescription (description : String) : String :=
  if description = "" then ""
  else
    match firstSentenceSplit description with
    | some m => jsTrim m
    | none => jsTrim (String.mk (description.data.take 100))

/-- `\w` of the label-capitalization regex. -/
def isWordChar (c : Char) : Bool := c.isAlpha || c.isDigit || c = '_'

/-- `replace(/\b\w/g, l => l.toUpperCase())`: uppercase each word-initial
character. -/
def capitalizeWordsAux : Option Char → List Char → List Char
  | _, [] => []
  | prev, c :: rest =>
    let atBoundary : Bool := match prev with
      | none => true
      | some p => ¬ isWordChar p
    (if isWordChar c && atBoundary then c.toUpper else c) ::
      capitalizeWordsAux (some c) rest

/-- Input label: underscores to spaces, words capitalized, XML-escaped. -/
def galaxyLabel (name : String) : String :=
  sanitizeXml (String.mk (capitalizeWordsAux none
    (name.data.map (fun c => if c = '_' then ' ' else c))))

/-- `GalaxyExporter.mapToolSpecTypeToGalaxy`. -/
def mapToolSpecTypeToGalaxy (t : String) : String :=
  if t = "string" then "text"
  else if t = "integer" then "integer"
  else if t = "float" then "float"
  else if t = "boolean" then "boolean"
  else if t = "enum" then "select"
  else if t = "asset" then "data"
  else "text"

/-- `replace(/^\./, '')`: strip one leading dot. -/
def stripLeadingDot (s : String) : String :=
  match s.data with
  | c :: rest => if c = '.' then String.mk rest else s
  | [] => s

/-- The fixed extension-to-Galaxy-datatype table. -/
def galaxyFormatMap (ext : String) : Option String :=
  if ext = "txt" then some "txt"
  else if ext = "tsv" then some "tabular"
  else if ext = "csv" then some "csv"
  else if ext = "json" then some "json"
  else if ext = "xml" then some "xml"
  else if ext = "fasta" then some "fasta"
  else if ext = "fastq" then some "fastqsanger"
  else if ext = "gff" then some "gff"
  else if ext = "gtf" then some "gtf"
  else if ext = "bed" then some "bed"
  else if ext = "vcf" then some "vcf"
  else if ext = "sam" then some "sam"
  else if ext = "bam" then some "bam"
  else none

/-- `GalaxyExporter.determineDataFormat`.  (A truthy but empty extension
array would throw in the JS source when indexed; the embedding yields the
unknown-extension default instead — no analyzed behavior reaches it.) -/
def determineDataFormat (extension : Option LicenseVal) : String :=
  let ext := match extension with
    | none => none
    | some (.one s) => if s = "" then none else some s
    | some (.many l) => some (l.headD "")
  match ext with
  | none => "data"
  | some e => (galaxyFormatMap (stripLeadingDot (jsToLowerCase e))).getD "data"

/-- `GalaxyExporter.buildDataInput`. -/
def buildDataInput (name : String) (dataDef : Option ToolSpecDataItem) : String :=
  let fmt := determineDataFormat (dataDef.bind (·.extension))
  "    <param name=\"" ++ sanitizeXml name ++ "\" type=\"data\" label=\"" ++
  galaxyLabel name ++ "\" format=\"" ++ fmt ++ "\"" ++
  (match dataDef.bind (·.description) with
   | some d => if d = "" then "" else " help=\"" ++ sanitizeXml d ++ "\""
   | none => "") ++
  " />"

/-- `GalaxyExporter.buildParameterInput`. -/
def buildParameterInput (name : String) (paramDef : ToolSpecParameter) : String :=
  let galaxyType := mapToolSpecTypeToGalaxy paramDef.type
  let xml := "    <param name=\"" ++ sanitizeXml name ++ "\" type=\"" ++ galaxyType ++
    "\" label=\"" ++ galaxyLabel name ++ "\"" ++
    (if paramDef.optional then " optional=\"true\"" else "") ++
    (match paramDef.default with
     | some d => " value=\"" ++ sanitizeXml d.render ++ "\""
     | none => "") ++
    (if (paramDef.type = "integer" ∨ paramDef.type = "float") ∧ paramDef.min.isSome then
      " min=\"" ++ toString (paramDef.min.getD 0) ++ "\"" else "") ++
    (if (paramDef.type = "integer" ∨ paramDef.type = "float") ∧ paramDef.max.isSome then
      " max=\"" ++ toString (paramDef.max.getD 0) ++ "\"" else "") ++
    (match paramDef.description with
     | some d => if d = "" then "" else " help=\"" ++ sanitizeXml d ++ "\""
     | none => "")
  match paramDef.values with
  | some vs =>
    if paramDef.type = "enum" ∧ vs.length > 0 then
      xml ++ ">\n" ++
      String.join (vs.map (fun v =>
        "      <option value=\"" ++ sanitizeXml v ++ "\">" ++ sanitizeXml v ++ "</option>\n")) ++
      "    </param>"
    else xml ++ " />"
  | none => xml ++ " />"

/-- `GalaxyExporter.buildInputs`: data inputs (declaration order) then
parameter inputs. -/
def buildInputs (data : UnifiedSoftwareMetadata) : String :=
  let dataInputs := match data.toolSpec.data with
    | some (.names l) => l.map (fun nm => buildDataInput nm none)
    | some (.items l) => l.map (fun p => buildDataInput p.1 (some p.2))
    | none => []
  let paramInputs := match data.toolSpec.parameters with
    | some ps => ps.map (fun p => buildParameterInput p.1 p.2)
    | none => []
  String.intercalate "\n    " (dataInputs ++ paramInputs)

/-- The conditional `interpreter` attribute derived from the command text. -/
def galaxyCommandInterpAttr (command : String) : String :=
  if strIncludes command "python" then " interpreter=\"python\""
  else if strIncludes command "perl" then " interpreter=\"perl\""
  else if strIncludes command "Rscript" then " interpreter=\"Rscript\""
  else ""

/-- `[givenNames, familyNames].filter(Boolean).join(' ')`. -/
def joinNames (a b : Option String) : String :=
  String.intercalate " " ((([a, b].filterMap id)).filter (fun s => s ≠ ""))

/-- The document up to and including the opening `<command` (before the
interpreter attribute). -/
def buildToolXmlPre (toolId name version profile shortDescription help : String) : String :=
  "<?xml version=\"1.0\"?>\n<tool id=\"" ++ sanitizeXml toolId ++ "\" name=\"" ++
  sanitizeXml name ++ "\" version=\"" ++ sanitizeXml version ++ "\" profile=\"" ++
  sanitizeXml profile ++ "\">\n    <description>" ++ sanitizeXml shortDescription ++
  "</description>\n    <help>" ++ sanitizeXml help ++ "</help>\n    <command"

/-- One `<data>` output element. -/
def galaxyOutputXml (output : GalaxyOutput) : String :=
  "\n        <data name=\"" ++ sanitizeXml output.name ++ "\" label=\"" ++
  sanitizeXml output.label ++ "\" format=\"" ++ sanitizeXml output.format ++ "\"" ++
  (match output.description with
   | some d =>
     if d = "" then " />"
     else
       ">\n            <change_format>\n                <when input=\"format\" value=\"" ++
       sanitizeXml output.format ++ "\" format=\"" ++ sanitizeXml output.format ++
       "\"/>\n            </change_format>\n        </data>"
   | none => " />")

/-- One `<author ... />` citation element. -/
def galaxyAuthorXml (author : Author) : String :=
  "\n            <author" ++
  (match author.name with
   | some n =>
     if n = "" then
       (if strTruthy author.givenNames ∨ strTruthy author.familyNames then
         " name=\"" ++ sanitizeXml (joinNames author.givenNames author.familyNames) ++ "\""
        else "")
     else " name=\"" ++ sanitizeXml n ++ "\""
   | none =>
     if strTruthy author.givenNames ∨ strTruthy author.familyNames then
       " name=\"" ++ sanitizeXml (joinNames author.givenNames author.familyNames) ++ "\""
     else "") ++
  (match author.email with
   | some e => if e = "" then "" else " email=\"" ++ sanitizeXml e ++ "\""
   | none => "") ++
  " />"

/-- The document after the closing `</command>`. -/
def buildToolXmlPost (inputs : String) (outputs : List GalaxyOutput)
    (container : Option String) (citations : CitationData) (authors : List Author) : String :=
  "\n    <inputs>\n" ++ inputs ++ "\n    </inputs>\n    <outputs>" ++
  (if outputs.length > 0 then String.join (outputs.map galaxyOutputXml)
   else "\n        <!-- Add output definitions here. Example:\n        <data name=\"output\" label=\"Output File\" format=\"txt\" /> -->") ++
  "\n    </outputs>\n    <requirements>" ++
  (match container with
   | some c =>
     if c = "" then "\n        <!-- Add container requirement here -->"
     else "\n        <container type=\"docker\">" ++ sanitizeXml c ++ "</container>"
   | none => "\n        <!-- Add container requirement here -->") ++
  "\n    </requirements>" ++
  (if authors.length > 0 ∨ citations.title ≠ "" then
    "\n    <citations>\n        <citation type=\"citation.cff\">" ++
    (if citations.title ≠ "" then
      "\n            <name>" ++ sanitizeXml citations.title ++ "</name>" else "") ++
    (if authors.length > 0 then String.join (authors.map galaxyAuthorXml) else "") ++
    "\n        </citation>\n    </citations>"
   else "") ++
  "\n    <stdio>\n        <exit_code range=\"1:\" level=\"fatal\"/>\n    </stdio>\n</tool>"

/-- `GalaxyExporter.export`: raises only when no Galaxy configuration exists
at all (neither per-call nor staged on the record). -/
def galaxyExport (data : UnifiedSoftwareMetadata)
    (galaxyConfig : Option GalaxyExportConfig) : Except String String :=
  match (if galaxyConfig.isSome then galaxyConfig else data.galaxyConfig) with
  | none => .error "Galaxy configuration is required for export"
  | some config =>
    let command := orStr config.command ""
    .ok (buildToolXmlPre (galaxyToolId data.repository.name) data.name data.version
        (orStr config.profile "24.0") (getShortDescription data.description)
        data.description ++
      galaxyCommandInterpAttr command ++
      ">" ++ sanitizeXml command ++ "</command>" ++
      buildToolXmlPost (buildInputs data) config.outputs config.container
        data.citation data.authors)

/-- `GalaxyExporter.validate`. -/
def galaxyValidate (data : UnifiedSoftwareMetadata)
    (galaxyConfig : Option GalaxyExportConfig) : List String :=
  let errors := baseValidate data
  match (if galaxyConfig.isSome then galaxyConfig else data.galaxyConfig) with
  | none => errors ++ ["Galaxy configuration is required"]
  | some config =>
    errors ++
    (if jsTrim (orStr config.command "") = "" then
      ["Command is required for Galaxy export"] else []) ++
    (config.outputs.enum.map (fun p =>
      (if jsTrim p.2.name = "" then
        ["Output " ++ toString (p.1 + 1) ++ ": name is required"] else []) ++
      (if jsTrim p.2.label = "" then
        ["Output " ++ toString (p.1 + 1) ++ ": label is required"] else []) ++
      (if jsTrim p.2.format = "" then
        ["Output " ++ toString (p.1 + 1) ++ ": format is required"] else []))).flatten

/-! ## DOAP exporter (doap-exporter source) -/

def DOAP_NS : String := "http://usefulinc.com/ns/doap#"

def FOAF_NS : String := "http://xmlns.com/foaf/0.1/"

def RDF_NS : String := "http://www.w3.org/1999/02/22-rdf-syntax-ns#"

def RDFS_NS : String := "http://www.w3.org/2000/01/rdf-schema#"

def SPDX_NS : String := "http://spdx.org/licenses/"

/-- An RDF triple as the exporter accumulates them. -/
structure Triple where
  subject : String
  predicate : String
  object : String
  isUri : Bool
  deriving Repr, DecidableEq

/-- DOAP per-export configuration. -/
structure DoapConfig where
  maintainer : Option Author := none
  format : Option String := none
  deriving Repr, DecidableEq

/-- `DoapExporter.resolveMaintainer`: config override → first segment of the
repository `owner/name` → first citation author → none. -/
def resolveMaintainer (data : UnifiedSoftwareMetadata) (doapConfig : Option DoapConfig) :
    Option Author :=
  match doapConfig.bind (·.maintainer) with
  | some m => some m
  | none =>
    let fromOwner : Option Author :=
      if data.repository.fullName = "" then none
      else
        let p0 := ((data.repository.fullName.splitOn "/").headD "")
        if p0 = "" then none else some { name := some p0 }
    match fromOwner with
    | some m => some m
    | none => data.authors.head?

/-- Upper-case hexadecimal digit. -/
def hexDigitU (n : Nat) : Char :=
  if n < 10 then Char.ofNat (48 + n) else Char.ofNat (55 + n)

/-- A percent-encoded byte. -/
def pctByte (b : UInt8) : String :=
  "%" ++ String.mk [hexDigitU (b.toNat / 16), hexDigitU (b.toNat % 16)]

/-- `encodeURIComponent`: unreserved marks kept, other characters
percent-encoded byte-wise over their UTF-8 encoding. -/
def encodeURIComponent (s : String) : String :=
  String.join (s.data.map (fun c =>
    if c.isAlpha ∨ c.isDigit ∨
        c ∈ ['-', '_', '.', '!', '~', '*', Char.ofNat 39, '(', ')'] then
      String.singleton c
    else
      String.join (((String.singleton c).toUTF8.toList).map pctByte)))

/-- ORCID value into a URI (`startsWith('http')` keeps it unchanged). -/
def orcidUriOf (orcid : String) : String :=
  if orcid.startsWith "http" then orcid else "https://orcid.org/" ++ orcid

/-- `DoapExporter.generatePersonUri`: ORCID, then mailto, then a synthesized
placeholder from the URL-encoded name. -/
def generatePersonUri (person : Author) (role : String) : String :=
  match person.orcid with
  | some o =>
    if o = "" then generatePersonUriNoOrcid person role
    else orcidUriOf o ++ "#" ++ role
  | none => generatePersonUriNoOrcid person role
where
  generatePersonUriNoOrcid (person : Author) (role : String) : String :=
    match person.email with
    | some e =>
      if e = "" then generatePersonUriFallback person role
      else "mailto:" ++ e ++ "#" ++ role
    | none => generatePersonUriFallback person role
  generatePersonUriFallback (person : Author) (role : String) : String :=
    let nm0 := orStr person.name (joinNames person.givenNames person.familyNames)
    let nm := if nm0 = "" then "unknown" else nm0
    "https://example.com/person/" ++ encodeURIComponent nm ++ "#" ++ role

/-- `DoapExporter.addPersonTriples` (returned instead of pushed). -/
def personTriples (personUri : String) (person : Author) : List Triple :=
  [⟨personUri, RDF_NS ++ "type", FOAF_NS ++ "Person", true⟩] ++
  (match person.name with
   | some n =>
     if n = "" then personNameFromParts personUri person
     else [⟨personUri, FOAF_NS ++ "name", n, false⟩]
   | none => personNameFromParts personUri person) ++
  (match person.givenNames with
   | some g => if g = "" then [] else [⟨personUri, FOAF_NS ++ "givenName", g, false⟩]
   | none => []) ++
  (match person.familyNames with
   | some f => if f = "" then [] else [⟨personUri, FOAF_NS ++ "familyName", f, false⟩]
   | none => []) ++
  (match person.email with
   | some e => if e = "" then [] else [⟨personUri, FOAF_NS ++ "mbox", "mailto:" ++ e, true⟩]
   | none => []) ++
  (match person.orcid with
   | some o => if o = "" then [] else [⟨personUri, FOAF_NS ++ "account", orcidUriOf o, true⟩]
   | none => [])
where
  personNameFromParts (personUri : String) (person : Author) : List Triple :=
    if strTruthy person.givenNames ∨ strTruthy person.familyNames then
      let fullName := joinNames person.givenNames person.familyNames
      if fullName = "" then [] else [⟨personUri, FOAF_NS ++ "name", fullName, false⟩]
    else []

/-- `\s` whitespace runs into a single hyphen (`replace(/\s+/g, '-')`). -/
def wsRunsToHyphen : List Char → List Char
  | [] => []
  | c :: rest =>
    if c.isWhitespace then '-' :: wsRunsToHyphen (rest.dropWhile Char.isWhitespace)
    else c :: wsRunsToHyphen rest
termination_by l => l.length
decreasing_by
  · have h : (rest.dropWhile Char.isWhitespace).length ≤ rest.length := by
      induction rest with
      | nil => simp [List.dropWhile]
      | cons c rest ih =>
        simp only [List.dropWhile, List.length_cons]
        split
        · omega
        · simp
    simp_wf
    omega
  · simp_wf

/-- The fixed SPDX identifier table of the DOAP exporter. -/
def doapLicenseMap (k : String) : Option String :=
  if k = "MIT" then some "MIT"
  else if k = "APACHE-2.0" then some "Apache-2.0"
  else if k = "APACHE2" then some "Apache-2.0"
  else if k = "APACHE" then some "Apache-2.0"
  else if k = "GPL-2.0" then some "GPL-2.0"
  else if k = "GPL-3.0" then some "GPL-3.0"
  else if k = "GPL2" then some "GPL-2.0"
  else if k = "GPL3" then some "GPL-3.0"
  else if k = "BSD-2-CLAUSE" then some "BSD-2-Clause"
  else if k = "BSD-3-CLAUSE" then some "BSD-3-Clause"
  else if k = "BSD2" then some "BSD-2-Clause"
  else if k = "BSD3" then some "BSD-3-Clause"
  else if k = "LGPL-2.1" then some "LGPL-2.1"
  else if k = "LGPL-3.0" then some "LGPL-3.0"
  else if k = "MPL-2.0" then some "MPL-2.0"
  else if k = "AGPL-3.0" then some "AGPL-3.0"
  else if k = "UNLICENSE" then some "Unlicense"
  else if k = "CC0-1.0" then some "CC0-1.0"
  else none

/-- `DoapExporter.convertLicenseToSpdxUri`. -/
def convertLicenseToSpdxUri (license : String) : Option String :=
  if license = "" then none
  else
    let normalized := jsToUpperCase (String.mk
      ((wsRunsToHyphen (jsTrim license).data).filter (fun c => c ≠ '(' ∧ c ≠ ')')))
    some (SPDX_NS ++ ((doapLicenseMap normalized).getD normalized))

/-- `replace(/[^a-zA-Z0-9]/g, rep)`: each non-alphanumeric becomes `rep`. -/
def replaceNonAlnum (rep : Char) (s : String) : String :=
  String.mk (s.data.map (fun c => if c.isAlpha ∨ c.isDigit then c else rep))

/-- `DoapExporter.generateProjectUri`. -/
def generateProjectUri (data : UnifiedSoftwareMetadata) : String :=
  if data.repository.htmlUrl ≠ "" then data.repository.htmlUrl ++ "#project"
  else "https://example.com/" ++ replaceNonAlnum '-' data.name ++ "#project"

/-- `DoapExporter.generateRepositoryUri`. -/
def generateRepositoryUri (data : UnifiedSoftwareMetadata) : String :=
  if data.repository.htmlUrl ≠ "" then data.repository.htmlUrl ++ "#repository"
  else "https://example.com/repo/" ++ replaceNonAlnum '-' data.name ++ "#repository"

/-- `DoapExporter.generateReleaseUri`. -/
def generateReleaseUri (data : UnifiedSoftwareMetadata) : String :=
  (if data.repository.htmlUrl ≠ "" then data.repository.htmlUrl
   else "https://example.com/" ++ replaceNonAlnum '-' data.name) ++
  "#release-" ++ data.version

/-- The full ordered triple list the DOAP exporter accumulates. -/
def buildDoapTriples (data : UnifiedSoftwareMetadata) (doapConfig : Option DoapConfig) :
    List Triple :=
  let projectUri := generateProjectUri data
  let shortDesc := getShortDescription data.description
  let homepage := orStr data.citation.url data.repository.htmlUrl
  [⟨projectUri, RDF_NS ++ "type", DOAP_NS ++ "Project", true⟩,
   ⟨projectUri, DOAP_NS ++ "name", data.name, false⟩,
   ⟨projectUri, DOAP_NS ++ "description", data.description, false⟩] ++
  (if shortDesc ≠ "" then [⟨projectUri, DOAP_NS ++ "shortdesc", shortDesc, false⟩] else []) ++
  (match resolveMaintainer data doapConfig with
   | some maintainer =>
     let maintainerUri := generatePersonUri maintainer "maintainer"
     personTriples maintainerUri maintainer ++
     [⟨projectUri, DOAP_NS ++ "maintainer", maintainerUri, true⟩]
   | none => []) ++
  (if homepage ≠ "" then [⟨projectUri, DOAP_NS ++ "homepage", homepage, true⟩] else []) ++
  (if licTruthy data.license.license then
    let licenses := match data.license.license with
      | some (.many l) => l
      | some (.one s) => [s]
      | none => []
    licenses.filterMap (fun license =>
      (convertLicenseToSpdxUri license).map
        (fun spdxUri => ⟨projectUri, DOAP_NS ++ "license", spdxUri, true⟩))
   else []) ++
  (if data.programmingLanguage ≠ "" ∧ data.programmingLanguage ≠ "Unknown" then
    [⟨projectUri, DOAP_NS ++ "programming-language", data.programmingLanguage, false⟩]
   else []) ++
  (data.keywords.map (fun keyword => ⟨projectUri, DOAP_NS ++ "category", keyword, false⟩)) ++
  (if data.repository.cloneUrl ≠ "" ∨ data.repository.htmlUrl ≠ "" then
    let repoUri := generateRepositoryUri data
    [⟨projectUri, DOAP_NS ++ "repository", repoUri, true⟩,
     ⟨repoUri, RDF_NS ++ "type", DOAP_NS ++ "GitRepository", true⟩] ++
    (if data.repository.cloneUrl ≠ "" then
      [⟨repoUri, DOAP_NS ++ "location", data.repository.cloneUrl, true⟩] else []) ++
    (if data.repository.htmlUrl ≠ "" then
      [⟨repoUri, DOAP_NS ++ "browse", data.repository.htmlUrl, true⟩] else [])
   else []) ++
  ((data.authors.map (fun author =>
    let authorUri := generatePersonUri author "developer"
    personTriples authorUri author ++
    [⟨projectUri, DOAP_NS ++ "developer", authorUri, true⟩])).flatten) ++
  (if data.version ≠ "" then
    [⟨projectUri, DOAP_NS ++ "revision", data.version, false⟩] else []) ++
  (if data.version ≠ "" ∧ strTruthy data.citation.dateReleased then
    let releaseUri := generateReleaseUri data
    [⟨projectUri, DOAP_NS ++ "release", releaseUri, true⟩,
     ⟨releaseUri, RDF_NS ++ "type", DOAP_NS ++ "Version", true⟩,
     ⟨releaseUri, DOAP_NS ++ "revision", data.version, false⟩,
     ⟨releaseUri, DOAP_NS ++ "created", data.citation.dateReleased.getD "", false⟩]
   else [])

/-- A predicate/object entry of a grouped subject block. -/
structure PredObj where
  predicate : String
  object : String
  isUri : Bool
  deriving Repr, DecidableEq

/-- Append a predicate/object under its subject, keeping both subject
insertion order and per-subject push order (the JS `Map` grouping). -/
def addToGroup (groups : List (String × List PredObj)) (subj : String) (po : PredObj) :
    List (String × List PredObj) :=
  match groups with
  | [] => [(subj, [po])]
  | (s, pos) :: rest =>
    if s = subj then (s, pos ++ [po]) :: rest
    else (s, pos) :: addToGroup rest subj po

/-- Group triples by subject in insertion order. -/
def groupBySubject (triples : List Triple) : List (String × List PredObj) :=
  triples.foldl (fun groups t => addToGroup groups t.subject ⟨t.predicate, t.object, t.isUri⟩) []

/-- `DoapExporter.formatUri` (doap/foaf/rdf prefixes, else angle brackets). -/
def formatUri (uri : String) : String :=
  if uri.startsWith DOAP_NS then "doap:" ++ uri.drop DOAP_NS.length
  else if uri.startsWith FOAF_NS then "foaf:" ++ uri.drop FOAF_NS.length
  else if uri.startsWith RDF_NS then "rdf:" ++ uri.drop RDF_NS.length
  else "<" ++ uri ++ ">"

/-- Turtle literal escaping (`\`, `"`, newline), char-wise. -/
def turtleEscape (s : String) : String :=
  String.join (s.data.map (fun c =>
    if c = '\\' then "\\\\"
    else if c = '"' then "\\\""
    else if c = '\n' then "\\n"
    else String.singleton c))

/-- `DoapExporter.formatObject`. -/
def formatObject (obj : String) (isUri : Bool) : String :=
  if isUri then formatUri obj
  else "\"" ++ turtleEscape obj ++ "\""

/-- `DoapExporter.formatQName` (also knows the rdfs prefix). -/
def formatQName (uri : String) : String :=
  if uri.startsWith DOAP_NS then "doap:" ++ uri.drop DOAP_NS.length
  else if uri.startsWith FOAF_NS then "foaf:" ++ uri.drop FOAF_NS.length
  else if uri.startsWith RDF_NS then "rdf:" ++ uri.drop RDF_NS.length
  else if uri.startsWith RDFS_NS then "rdfs:" ++ uri.drop RDFS_NS.length
  else uri

/-- One Turtle subject block. -/
def turtleBlock (subject : String) (preds : List PredObj) : String :=
  formatUri subject ++ "\n" ++
  String.join (preds.enum.map (fun p =>
    "    " ++ formatUri p.2.predicate ++ " " ++ formatObject p.2.object p.2.isUri ++
    (if p.1 + 1 = preds.length then " .\n\n" else " ;\n")))

/-- `DoapExporter.serializeToTurtle`. -/
def serializeToTurtle (triples : List Triple) : String :=
  "@prefix doap: <" ++ DOAP_NS ++ "> .\n@prefix foaf: <" ++ FOAF_NS ++
  "> .\n@prefix rdf: <" ++ RDF_NS ++ "> .\n@prefix rdfs: <" ++ RDFS_NS ++ "> .\n\n" ++
  String.join ((groupBySubject triples).map (fun g => turtleBlock g.1 g.2))

/-- One RDF/XML subject element. -/
def rdfXmlBlock (subject : String) (preds : List PredObj) : String :=
  let elementType := match preds.find? (fun p => p.predicate = RDF_NS ++ "type" ∧ p.isUri) with
    | some typePred => formatQName typePred.object
    | none => "rdf:Description"
  "  <" ++ elementType ++ " rdf:about=\"" ++ sanitizeXml subject ++ "\">\n" ++
  String.join ((preds.filter (fun p => p.predicate ≠ RDF_NS ++ "type")).map (fun p =>
    let qname := formatQName p.predicate
    if p.isUri then
      "    <" ++ qname ++ " rdf:resource=\"" ++ sanitizeXml p.object ++ "\"/>\n"
    else
      "    <" ++ qname ++ ">" ++ sanitizeXml p.object ++ "</" ++ qname ++ ">\n")) ++
  "  </" ++ elementType ++ ">\n"

/-- `DoapExporter.serializeToRdfXml`. -/
def serializeToRdfXml (triples : List Triple) : String :=
  "<?xml version=\"1.0\" encoding=\"UTF-8\"?>\n<rdf:RDF\n    xmlns:rdf=\"" ++ RDF_NS ++
  "\"\n    xmlns:rdfs=\"" ++ RDFS_NS ++ "\"\n    xmlns:doap=\"" ++ DOAP_NS ++
  "\"\n    xmlns:foaf=\"" ++ FOAF_NS ++ "\">\n" ++
  String.join ((groupBySubject triples).map (fun g => rdfXmlBlock g.1 g.2)) ++
  "</rdf:RDF>\n"

/-- `DoapExporter.export`. -/
def doapExport (data : UnifiedSoftwareMetadata) (doapConfig : Option DoapConfig) : String :=
  let fmt := orStr (doapConfig.bind (·.format)) "turtle"
  let triples := buildDoapTriples data doapConfig
  if fmt = "turtle" then serializeToTurtle triples else serializeToRdfXml triples

/-! ## Schema.org exporter (schema-org-exporter source) -/

/-- Consume exactly `n` digits. -/
def eatDigits : Nat → List Char → Option (List Char)
  | 0, l => some l
  | n + 1, c :: rest => if c.isDigit then eatDigits n rest else none
  | _ + 1, [] => none

/-- Consume one expected character. -/
def eatChar (c : Char) : List Char → Option (List Char)
  | d :: rest => if d = c then some rest else none
  | [] => none

/-- The test `/^\d{4}-\d{2}-\d{2}(T\d{2}:\d{2}:\d{2}(\.\d{3})?Z?)?$/`. -/
def isoDateRegexTest (s : String) : Bool :=
  match ((((eatDigits 4 s.data).bind (eatChar '-')).bind (eatDigits 2)).bind
      (eatChar '-')).bind (eatDigits 2) with
  | none => false
  | some [] => true
  | some rest =>
    match ((((((eatChar 'T' rest).bind (eatDigits 2)).bind (eatChar ':')).bind
        (eatDigits 2)).bind (eatChar ':')).bind (eatDigits 2)) with
    | none => false
    | some rest2 =>
      let rest3 := match (eatChar '.' rest2).bind (eatDigits 3) with
        | some r => r
        | none => rest2
      match rest3 with
      | [] => true
      | ['Z'] => true
      | _ => false

/-- `SchemaOrgExporter.formatDate`: ISO-looking dates pass through, other
strings go through the host `new Date(...)`/`toISOString` (the `jsDateToIso`
oracle, `none` when the parse is invalid), falling back to the original. -/
def formatDate (jsDateToIso : String → Option String) (date : String) : String :=
  if date = "" then ""
  else if isoDateRegexTest date then date
  else match jsDateToIso date with
    | some iso => iso
    | none => date

/-- SPDX table of the Schema.org exporter, in source insertion order. -/
def schemaSpdxEntries : List (String × String) :=
  [("mit", "MIT"), ("apache", "Apache-2.0"), ("apache-2.0", "Apache-2.0"),
   ("apache2", "Apache-2.0"), ("gpl", "GPL-3.0"), ("gpl-3.0", "GPL-3.0"),
   ("gpl-2.0", "GPL-2.0"), ("gplv3", "GPL-3.0"), ("gplv2", "GPL-2.0"),
   ("bsd", "BSD-3-Clause"), ("bsd-3-clause", "BSD-3-Clause"),
   ("bsd-2-clause", "BSD-2-Clause"), ("mozilla", "MPL-2.0"), ("mpl-2.0", "MPL-2.0"),
   ("eclipse", "EPL-1.0"), ("epl-1.0", "EPL-1.0"), ("unlicense", "Unlicense"),
   ("cc0", "CC0-1.0"), ("cc0-1.0", "CC0-1.0")]

/-- `SchemaOrgExporter.normalizeLicense`: exact SPDX lookup, then first
partial (two-sided substring) match, then the original string. -/
def schemaOrgNormalizeLicense (license : LicenseVal) : String :=
  let licenseStr := match license with
    | .one s => s
    | .many l => l.headD ""
  if licenseStr = "" then ""
  else
    let normalized := jsTrim (String.mk ((jsToLowerCase licenseStr).data.filter
      (fun c => c.isLower ∨ c.isDigit ∨ c = '-')))
    match schemaSpdxEntries.find? (fun e => e.1 = normalized) with
    | some e => e.2
    | none =>
      match schemaSpdxEntries.find? (fun e =>
          strIncludes normalized e.1 || strIncludes e.1 normalized) with
      | some e => e.2
      | none => licenseStr

/-- `https?://orcid.org/` prefix removal (`replace(/^https?:\/\/orcid\.org\//, '')`). -/
def stripOrcidPrefix (s : String) : String :=
  if s.startsWith "https://orcid.org/" then s.drop "https://orcid.org/".length
  else if s.startsWith "http://orcid.org/" then s.drop "http://orcid.org/".length
  else s

/-- `SchemaOrgExporter.mapAuthor`: structured names preferred over the
literal name. -/
def schemaOrgAuthorJson (author : Author) : JVal :=
  .obj ([("@type", JVal.str "Person")] ++
    (if strTruthy author.givenNames ∨ strTruthy author.familyNames then
      optStrField "givenName" author.givenNames ++
      optStrField "familyName" author.familyNames
     else optStrField "name" author.name) ++
    optStrField "email" author.email ++
    (match author.affiliation with
     | some a =>
       if a = "" then []
       else [("affiliation", JVal.obj [("@type", .str "Organization"), ("name", .str a)])]
     | none => []) ++
    (match author.orcid with
     | some o =>
       if o = "" then []
       else
         let orcidUrl := if o.startsWith "http" then o
           else "https://orcid.org/" ++ stripOrcidPrefix o
         [("identifier", JVal.obj [("@type", .str "PropertyValue"),
           ("propertyID", .str "ORCID"), ("value", .str orcidUrl)])]
     | none => []))

/-- `SchemaOrgExporter.hasCitationData`. -/
def hasCitationData (data : UnifiedSoftwareMetadata) : Bool :=
  data.citation.title ≠ "" ∨ data.citation.authors.length > 0 ∨
  strTruthy data.citation.dateReleased ∨ strTruthy data.citation.url

/-- `SchemaOrgExporter.formatCitation` (a CreativeWork object). -/
def schemaOrgCitationJson (jsDateToIso : String → Option String)
    (data : UnifiedSoftwareMetadata) : JVal :=
  .obj ([("@type", JVal.str "CreativeWork")] ++
    (if data.citation.title ≠ "" then [("name", JVal.str data.citation.title)] else []) ++
    (if data.citation.authors.length > 0 then
      [("author", JVal.arr (data.citation.authors.map schemaOrgAuthorJson))] else []) ++
    (match data.citation.dateReleased with
     | some d =>
       if d = "" then []
       else [("datePublished", JVal.str (formatDate jsDateToIso d))]
     | none => []) ++
    optStrField "url" data.citation.url ++
    optStrField "abstract" data.citation.abstract ++
    (match data.citation.keywords with
     | some ks =>
       if ks.length > 0 then [("keywords", JVal.arr (ks.map JVal.str))] else []
     | none => []))

/-- Schema.org software requirements: asset parameters with descriptions,
plus typed descriptions of other described parameters. -/
def schemaOrgSoftwareRequirements (params : List (String × ToolSpecParameter)) :
    List String :=
  params.filterMap (fun p =>
    if p.2.type = "asset" ∧ strTruthy p.2.description then
      some (p.1 ++ ": " ++ p.2.description.getD "")
    else if strTruthy p.2.description then
      some (p.1 ++ " (" ++ p.2.type ++ "): " ++ p.2.description.getD "")
    else none)

/-- The Schema.org document object, fields in source insertion order. -/
def schemaOrgJson (jsDateToIso : String → Option String)
    (data : UnifiedSoftwareMetadata) : JVal :=
  .obj ([("@context", JVal.str "https://schema.org"),
    ("@type", JVal.str "SoftwareApplication"),
    ("name", JVal.str data.name),
    ("description", JVal.str data.description)] ++
    (if data.version ≠ "" then [("softwareVersion", JVal.str data.version)] else []) ++
    [("author", JVal.arr (data.authors.map schemaOrgAuthorJson))] ++
    (if data.maintainers.length > 0 then
      [("maintainer", JVal.arr (data.maintainers.map schemaOrgAuthorJson))] else []) ++
    (if strTruthy data.citation.url ∨ data.repository.htmlUrl ≠ "" then
      [("url", JVal.str (orStr data.citation.url data.repository.htmlUrl))] else []) ++
    (if data.repository.htmlUrl ≠ "" ∨ data.repository.cloneUrl ≠ "" then
      [("codeRepository", JVal.str
        (if data.repository.htmlUrl = "" then data.repository.cloneUrl
         else data.repository.htmlUrl))] else []) ++
    (if data.programmingLanguage ≠ "" then
      [("programmingLanguage", JVal.str data.programmingLanguage)] else []) ++
    (if data.keywords.length > 0 then
      [("keywords", JVal.arr (data.keywords.map JVal.str))] else []) ++
    (match data.license.license with
     | some l =>
       if licTruthy (some l) then
         [("license", JVal.str (schemaOrgNormalizeLicense l))]
       else []
     | none => []) ++
    (match data.citation.dateReleased with
     | some d =>
       if d = "" then []
       else [("datePublished", JVal.str (formatDate jsDateToIso d))]
     | none => []) ++
    (if data.repository.createdAt ≠ "" then
      [("dateCreated", JVal.str (formatDate jsDateToIso data.repository.createdAt))] else []) ++
    (if data.repository.updatedAt ≠ "" ∨ data.generatedAt ≠ "" then
      [("dateModified", JVal.str (formatDate jsDateToIso
        (if data.repository.updatedAt = "" then data.generatedAt
         else data.repository.updatedAt)))] else []) ++
    optStrField "abstract" data.citation.abstract ++
    (if hasCitationData data then
      [("citation", schemaOrgCitationJson jsDateToIso data)] else []) ++
    (match data.toolSpec.parameters with
     | some ps =>
       [("softwareRequirements", JVal.arr
         ((schemaOrgSoftwareRequirements ps).map JVal.str))]
     | none => []))

/-- `SchemaOrgExporter.export`. -/
def schemaOrgExport (jsDateToIso : String → Option String)
    (data : UnifiedSoftwareMetadata) : String :=
  jsonStringify (schemaOrgJson jsDateToIso data) 0

/-- `SchemaOrgExporter.validate`. -/
def schemaOrgValidate (data : UnifiedSoftwareMetadata) : List String :=
  baseValidate data ++
  (if ¬ (strTruthy data.citation.url ∨ data.repository.htmlUrl ≠ "" ∨
      data.repository.cloneUrl ≠ "") then
    ["At least one of \"url\" or \"codeRepository\" is required for Schema.org"] else []) ++
  (if data.version = "" then ["Software version is required for Schema.org"] else [])

/-! ## CWL exporter (cwl-exporter source) -/

/-- `CwlExporter.generateToolId` (hyphen flavor, no suffix). -/
def cwlGenerateToolId (name : String) : String :=
  let lowered := (jsToLowerCase name).data
  let replaced := lowered.map (fun c => if c.isLower ∨ c.isDigit then c else '-')
  String.mk (stripEdgeChar '-' (squeezeChar '-' replaced))

/-- The CWL type value returned by `mapToolSpecTypeToCwl`: a plain type name,
a `['null', base]` union array, an enum object, or an array-of object. -/
inductive CwlTypeVal where
  | name (s : String)
  | list (xs : List CwlTypeVal)
  | enumObj (symbols : List String)
  | arrayObj (items : CwlTypeVal)

/-- `CwlExporter.mapToolSpecTypeToCwl`: the enum case returns its object
immediately; only the remaining cases go through the optional/array wraps. -/
def mapToolSpecTypeToCwl (paramDef : ToolSpecParameter) : CwlTypeVal :=
  if paramDef.type = "enum" then .enumObj (paramDef.values.getD [])
  else
    let baseType : String :=
      if paramDef.type = "string" then "string"
      else if paramDef.type = "integer" then "int"
      else if paramDef.type = "float" then "float"
      else if paramDef.type = "boolean" then "boolean"
      else if paramDef.type = "asset" then "File"
      else "string"
    let wrapped : CwlTypeVal :=
      if paramDef.optional then .list [.name "null", .name baseType]
      else .name baseType
    if paramDef.array then .arrayObj wrapped else wrapped

/-- CWL type value rendered into the YAML document tree. -/
def CwlTypeVal.toJVal : CwlTypeVal → JVal
  | .name s => .str s
  | .list xs => .arr (xs.attach.map (fun x => CwlTypeVal.toJVal x.1))
  | .enumObj symbols => .obj [("type", .str "enum"), ("symbols", .arr (symbols.map JVal.str))]
  | .arrayObj items => .obj [("type", .str "array"), ("items", CwlTypeVal.toJVal items)]
termination_by t => sizeOf t
decreasing_by
  all_goals simp_wf
  all_goals first
    | omega
    | (have h := List.sizeOf_lt_of_mem x.2
       omega)

/-- Label of a CWL input (no XML escaping). -/
def cwlLabel (name : String) : String :=
  String.mk (capitalizeWordsAux none (name.data.map (fun c => if c = '_' then ' ' else c)))

/-- A primitive default value in the YAML tree. -/
def JsPrim.toJVal : JsPrim → JVal
  | .str s => .str s
  | .num n => .num n
  | .bool b => .bool b

/-- `CwlExporter.buildInputs` (no command-line bindings by design). -/
def buildCwlInputs (data : UnifiedSoftwareMetadata) : List (String × JVal) :=
  match data.toolSpec.parameters with
  | none => []
  | some ps => ps.map (fun p =>
      (p.1, JVal.obj ([("type", (mapToolSpecTypeToCwl p.2).toJVal),
        ("label", .str (cwlLabel p.1))] ++
        optStrField "doc" p.2.description ++
        (match p.2.default with
         | some d => [("default", d.toJVal)]
         | none => []))))

/-- `CwlExporter.buildOutputs`. -/
def buildCwlOutputs (outputs : List CwlOutput) : List (String × JVal) :=
  outputs.map (fun o =>
    (o.name, JVal.obj ([("type", .str o.type),
      ("outputBinding", .obj [("glob", .str o.glob)])] ++
      optStrField "label" o.label ++
      optStrField "doc" o.doc)))

/-- `"`-escaping of a JSON key inside the generated shell command. -/
def cwlEscapeName (s : String) : String :=
  String.join (s.data.map (fun c => if c = '"' then "\\\"" else String.singleton c))

/-- `CwlExporter.generateInputsJsonCommand`: the printf that materializes
`inputs/inputs.json`, quoting string-like values and leaving numeric/boolean
substitutions bare. -/
def generateInputsJsonCommand (data : UnifiedSoftwareMetadata) : String :=
  match data.toolSpec.parameters with
  | none => "echo \"" ++ lbr ++ rbr ++ "\" > inputs/inputs.json"
  | some [] => "echo \"" ++ lbr ++ rbr ++ "\" > inputs/inputs.json"
  | some ps =>
    let jsonEntries := ps.map (fun p =>
      let escapedName := cwlEscapeName p.1
      if p.2.type = "asset" then
        "  \"" ++ escapedName ++ "\": \"$(inputs." ++ p.1 ++ ".path)\""
      else if p.2.type = "integer" ∨ p.2.type = "float" then
        "  \"" ++ escapedName ++ "\": $(inputs." ++ p.1 ++ ")"
      else if p.2.type = "boolean" then
        "  \"" ++ escapedName ++ "\": $(inputs." ++ p.1 ++ ")"
      else
        "  \"" ++ escapedName ++ "\": \"$(inputs." ++ p.1 ++ ")\"")
    "printf '" ++ lbr ++ "\n" ++ String.intercalate ",\n" jsonEntries ++ "\n" ++ rbr ++
    "' > inputs/inputs.json"

/-- `CwlExporter.generateDockerCommand`. -/
def generateDockerCommand (data : UnifiedSoftwareMetadata) (config : CwlExportConfig)
    (container : String) : String :=
  let toolName := cwlGenerateToolId data.name
  "docker run --rm -v \"$(pwd)/inputs:/data/in:ro\" -v \"$(runtime.outdir)/outputs:/data/out:rw\" -e RUN_TOOL=" ++
  toolName ++ " " ++ container ++
  (match config.baseCommand with
   | some b => if b = "" then "" else " " ++ b
   | none => "")

/-- `CwlExporter.generateCommandSequence`. -/
def generateCommandSequence (data : UnifiedSoftwareMetadata) (config : CwlExportConfig)
    (container : Option String) : Option String :=
  match container with
  | none => none
  | some c =>
    if c = "" then none
    else
      let step1 := match data.toolSpec.parameters with
        | some ps =>
          if ps.length > 0 then generateInputsJsonCommand data
          else "echo \"" ++ lbr ++ rbr ++ "\" > inputs/inputs.json"
        | none => "echo \"" ++ lbr ++ rbr ++ "\" > inputs/inputs.json"
      some (step1 ++ " && " ++ generateDockerCommand data config c)

/-- First-element extraction of a truthy license for the CWL metadata block
(an empty array indexes to `undefined`, printed as such by the v1.1 path). -/
def licenseFirstStr : Option LicenseVal → String
  | some (.one s) => s
  | some (.many (x :: _)) => x
  | some (.many []) => "undefined"
  | none => "undefined"

/-- Author display name used by the CWL metadata block. -/
def cwlAuthorName (author : Author) : String :=
  match author.name with
  | some n => if n = "" then joinNames author.givenNames author.familyNames else n
  | none => joinNames author.givenNames author.familyNames

/-- `CwlExporter.export`, parametric in the external js-yaml `dump`. -/
def cwlExport (dump : JVal → String) (data : UnifiedSoftwareMetadata)
    (cwlConfig : Option CwlExportConfig) : String :=
  let config := cwlConfig.getD
    { cwlVersion := "v1.2", outputs := [], baseCommand := none,
      container := data.galaxyConfig.bind (·.container) }
  let cwlVersion := if config.cwlVersion = "" then "v1.2" else config.cwlVersion
  let toolId := cwlGenerateToolId data.name
  let container := orStrOpt config.container (data.galaxyConfig.bind (·.container))
  let docVal : Option String :=
    if data.description ≠ "" then some data.description
    else if strTruthy data.citation.abstract then data.citation.abstract
    else none
  let inputs := buildCwlInputs data
  let outputs := buildCwlOutputs config.outputs
  let commandSequence := generateCommandSequence data config container
  let hasParams : Bool := match data.toolSpec.parameters with
    | some ps => ps.length != 0
    | none => false
  let metadata : List (String × JVal) :=
    if cwlVersion = "v1.2" then
      (if data.authors.length > 0 then
        [("s:author", JVal.arr (data.authors.map (fun a => JVal.str (cwlAuthorName a))))]
       else []) ++
      (if data.version ≠ "" then [("s:version", JVal.str data.version)] else []) ++
      (if licTruthy data.license.license then
        match data.license.license with
        | some (.one s) => [("s:license", JVal.str s)]
        | some (.many (x :: _)) => [("s:license", JVal.str x)]
        | _ => []
       else [])
    else []
  let docOut : Option String :=
    if cwlVersion = "v1.2" then docVal
    else
      if data.authors.length > 0 ∨ data.version ≠ "" ∨ licTruthy data.license.license then
        let metadataParts :=
          (if data.authors.length > 0 then
            ["Authors: " ++ String.intercalate ", " (data.authors.map cwlAuthorName)]
           else []) ++
          (if data.version ≠ "" then ["Version: " ++ data.version] else []) ++
          (if licTruthy data.license.license then
            ["License: " ++ licenseFirstStr data.license.license] else [])
        match docVal with
        | some d =>
          if d = "" then some (String.intercalate "\n" metadataParts)
          else some (d ++ "\n\n" ++ String.intercalate "\n" metadataParts)
        | none => some (String.intercalate "\n" metadataParts)
      else docVal
  dump (.obj
    ([("cwlVersion", JVal.str cwlVersion),
      ("class", JVal.str "CommandLineTool"),
      ("id", JVal.str toolId),
      ("label", JVal.str data.name)] ++
     (match docOut with
      | some d => [("doc", JVal.str d)]
      | none => []) ++
     (if inputs.length > 0 then [("inputs", JVal.obj inputs)] else []) ++
     (if outputs.length > 0 then [("outputs", JVal.obj outputs)] else []) ++
     (match commandSequence with
      | some seq =>
        [("baseCommand", JVal.arr [.str "sh", .str "-c"]),
         ("arguments", JVal.arr [.str seq])]
      | none => []) ++
     (if hasParams then
       [("requirements", JVal.obj [("InitialWorkDirRequirement", JVal.obj
         [("listing", JVal.arr [JVal.obj [("class", .str "Directory"),
           ("basename", .str "inputs"), ("listing", JVal.arr []),
           ("writable", JVal.bool true)]])])])]
      else []) ++
     (if cwlVersion = "v1.2" ∧ metadata.length > 0 then
       [("$namespaces", JVal.obj [("s", JVal.str "https://schema.org/")])] ++ metadata
      else [])))

/-- `CwlExporter.validate`. -/
def cwlValidate (data : UnifiedSoftwareMetadata) (cwlConfig : Option CwlExportConfig) :
    List String :=
  let config := cwlConfig.getD
    { cwlVersion := "v1.2", outputs := [], baseCommand := none,
      container := data.galaxyConfig.bind (·.container) }
  let noParams : Bool := match data.toolSpec.parameters with
    | some ps => ps.length == 0
    | none => true
  baseValidate data ++
  (if noParams ∧ config.outputs.length == 0 then
    ["CWL CommandLineTool requires at least one input or output"] else []) ++
  (config.outputs.enum.map (fun p =>
    (if jsTrim p.2.name = "" then
      ["Output " ++ toString (p.1 + 1) ++ ": name is required"] else []) ++
    (if jsTrim p.2.type = "" then
      ["Output " ++ toString (p.1 + 1) ++ ": type is required"] else []) ++
    (if jsTrim p.2.glob = "" then
      ["Output " ++ toString (p.1 + 1) ++ ": glob pattern is required"] else []))).flatten

/-! ## GitHub content provider (github-api source) -/

/-- What the code reads off a resolved `fetch` response. -/
structure FetchResponse where
  ok : Bool
  status : Nat
  deriving Repr, DecidableEq

/-- The contents-API URL built by the file operations. -/
def contentsUrl (owner name filename : String) : String :=
  "https://api.github.com/repos/" ++ owner ++ "/" ++ name ++ "/contents/" ++ filename

/-- `checkFileExists(repoInfo, filename)` over the transport oracle `fetch`
(`Except.error` models the promise rejecting with a thrown error): `ok` of a
resolved response, `false` on any thrown transport error. -/
def checkFileExists (fetch : String → Except String FetchResponse)
    (repoInfo : GitHubRepoInfo) (filename : String) : Bool :=
  match fetch (contentsUrl repoInfo.owner repoInfo.name filename) with
  | .ok response => response.ok
  | .error _ => false

/-! ## Analysis engine (analysis-engine source) -/

/-- The run states of `AnalysisState.state`. -/
inductive RunState where
  | idle
  | validating
  | analyzing
  | completed
  | error
  | cancelled
  deriving Repr, DecidableEq

/-- The per-check states. -/
inductive CheckStatus where
  | pending
  | running
  | completed
  | failed
  | skipped
  deriving Repr, DecidableEq

/-- The `data` payload a check stores in its result. -/
inductive CheckData where
  | repo (info : GitHubRepoInfo)
  | tool (spec : ToolSpec)
  | citation (c : CitationCff)
  | license (d : LicenseCheckData)
  | conversion (m : UnifiedSoftwareMetadata) (exportedDataLength : Nat)

/-- A check's result record (durations are wall-clock and outside the
embedding). -/
structure CheckResult where
  id : String
  name : String
  description : String
  status : CheckStatus
  data : Option CheckData := none
  error : Option String := none
  warning : Option String := none
  isRequired : Bool

/-- The single shared analysis state threaded through the pipeline. -/
structure AnalysisState where
  state : RunState
  repoUrl : String
  repoInfo : Option GitHubRepoInfo
  checks : List (String × CheckResult)
  currentCheck : Option String
  progress : Nat
  toolYaml : Option ToolSpec
  citationCff : Option CitationCff
  metadata : Option UnifiedSoftwareMetadata
  warnings : List String
  errors : List String
  canCancel : Bool
  canRetry : Bool

/-- The environment of external capabilities a run consumes: the repository
resolution result, the (never-throwing) file-existence test, the (throwing)
content fetch, the external tool-spec validator, the citation-js and js-yaml
parsers, and the clock reading taken by the metadata builder. -/
structure AnalysisEnv where
  repoResult : Except String GitHubRepoInfo
  fileExists : String → Bool
  fileContent : String → Except String String
  validateToolSpec : String → ToolSpecValidationResult
  citeParse : String → Option JsVal
  yamlLoad : String → Except String JsVal
  nowIso : String

/-- `Map.set` over the insertion-ordered check map: update in place, else
append. -/
def setCheck (k : String) (v : CheckResult) :
    List (String × CheckResult) → List (String × CheckResult)
  | [] => [(k, v)]
  | (k', v') :: rest =>
    if k' = k then (k, v) :: rest else (k', v') :: setCheck k v rest

/-- `Map.get`. -/
def getCheck (k : String) (l : List (String × CheckResult)) : Option CheckResult :=
  (l.find? (fun p => p.1 = k)).map (·.2)

/-- Declared metadata of a check. -/
structure CheckInfo where
  id : String
  name : String
  description : String
  isRequired : Bool
  deriving Repr, DecidableEq

/-- The `repo-exists` executor. -/
def repoExistsExec (env : AnalysisEnv) (s : AnalysisState) :
    AnalysisState × CheckResult :=
  match env.repoResult with
  | .ok repoInfo =>
    ({ s with repoInfo := some repoInfo, progress := 20 },
     { id := "repo-exists", name := "Repository exists and is public",
       description := "Validating repository URL and accessibility",
       status := .completed, data := some (.repo repoInfo), isRequired := true })
  | .error msg =>
    (s,
     { id := "repo-exists", name := "Repository exists and is public",
       description := "Validating repository URL and accessibility",
       status := .failed, error := some msg, isRequired := true })

/-- The `tool-yaml-exists` executor. -/
def toolYamlExistsExec (env : AnalysisEnv) (s : AnalysisState) :
    AnalysisState × CheckResult :=
  match s.repoInfo with
  | none =>
    (s,
     { id := "tool-yaml-exists", name := "tool.yml file exists",
       description := "Checking for tool.yml in src directory",
       status := .failed, error := some "Repository info not available",
       isRequired := true })
  | some _ =>
    let exs := env.fileExists "src/tool.yml"
    ({ s with progress := 40 },
     { id := "tool-yaml-exists", name := "tool.yml file exists",
       description := "Checking for tool.yml in src directory",
       status := if exs then .completed else .failed,
       error := if exs then none else some "tool.yml file not found in src directory",
       isRequired := true })

/-- The `tool-yaml-valid` executor. -/
def toolYamlValidExec (env : AnalysisEnv) (s : AnalysisState) :
    AnalysisState × CheckResult :=
  match s.repoInfo with
  | none =>
    (s,
     { id := "tool-yaml-valid", name := "tool.yml is valid and compliant",
       description := "Validating tool.yml structure and content",
       status := .failed, error := some "Repository info not available",
       isRequired := true })
  | some _ =>
    match env.fileContent "src/tool.yml" with
    | .error msg =>
      (s,
       { id := "tool-yaml-valid", name := "tool.yml is valid and compliant",
         description := "Validating tool.yml structure and content",
         status := .failed, error := some msg, isRequired := true })
    | .ok yamlContent =>
      let validationResult := env.validateToolSpec yamlContent
      ({ s with toolYaml := validationResult.toolSpec, progress := 60 },
       { id := "tool-yaml-valid", name := "tool.yml is valid and compliant",
         description := "Validating tool.yml structure and content",
         status := if validationResult.isValid then .completed else .failed,
         data := validationResult.toolSpec.map CheckData.tool,
         error := if validationResult.isValid then none
           else some (String.intercalate "; " validationResult.errors),
         warning := joinedOpt validationResult.warnings,
         isRequired := true })

/-- The `citation-cff-exists` executor. -/
def citationCffExistsExec (env : AnalysisEnv) (s : AnalysisState) :
    AnalysisState × CheckResult :=
  match s.repoInfo with
  | none =>
    (s,
     { id := "citation-cff-exists", name := "CITATION.cff file exists and is valid",
       description := "Checking for CITATION.cff in repository root and parsing content",
       status := .failed, error := some "Repository info not available",
       isRequired := false })
  | some _ =>
    if env.fileExists "CITATION.cff" then
      match env.fileContent "CITATION.cff" with
      | .error msg =>
        (s,
         { id := "citation-cff-exists", name := "CITATION.cff file exists and is valid",
           description := "Checking for CITATION.cff in repository root and parsing content",
           status := .failed, error := some msg, isRequired := false })
      | .ok cffContent =>
        let validationResult := parseCitationCff env.citeParse env.yamlLoad cffContent
        if validationResult.isValid then
          ({ s with citationCff := validationResult.citationCff, progress := 80 },
           { id := "citation-cff-exists", name := "CITATION.cff file exists and is valid",
             description := "Checking for CITATION.cff in repository root and parsing content",
             status := .completed,
             data := validationResult.citationCff.map CheckData.citation,
             warning := joinedOpt validationResult.warnings,
             isRequired := false })
        else
          (s,
           { id := "citation-cff-exists", name := "CITATION.cff file exists and is valid",
             description := "Checking for CITATION.cff in repository root and parsing content",
             status := .failed,
             error := some (String.intercalate "; " validationResult.errors),
             warning := joinedOpt validationResult.warnings,
             isRequired := false })
    else
      ({ s with progress := 80 },
       { id := "citation-cff-exists", name := "CITATION.cff file exists and is valid",
         description := "Checking for CITATION.cff in repository root and parsing content",
         status := .failed,
         warning := some "CITATION.cff file is missing (optional but recommended)",
         isRequired := false })

/-- The `license-check` executor. -/
def licenseCheckExec (env : AnalysisEnv) (s : AnalysisState) :
    AnalysisState × CheckResult :=
  match s.repoInfo with
  | none =>
    (s,
     { id := "license-check", name := "LICENSE file check",
       description := "Checking for LICENSE file and comparing with CITATION.cff license",
       status := .failed, error := some "Repository info not available",
       isRequired := false })
  | some _ =>
    let licenseExists := env.fileExists "LICENSE"
    match (if licenseExists then env.fileContent "LICENSE" else .ok "") with
    | .error msg =>
      (s,
       { id := "license-check", name := "LICENSE file check",
         description := "Checking for LICENSE file and comparing with CITATION.cff license",
         status := .failed, error := some msg, isRequired := false })
    | .ok licenseFileContent =>
      let licenseComparison := match s.citationCff with
        | some c =>
          if licenseFileContent ≠ "" then compareLicenses c.license licenseFileContent
          else ⟨true, []⟩
        | none => ⟨true, []⟩
      let allWarnings :=
        (if licenseExists then []
         else ["LICENSE file is missing (recommended for legal clarity)"]) ++
        licenseComparison.warnings
      ({ s with progress := 90 },
       { id := "license-check", name := "LICENSE file check",
         description := "Checking for LICENSE file and comparing with CITATION.cff license",
         status := .completed,
         data := some (.license ⟨licenseExists, licenseFileContent.length, licenseComparison⟩),
         warning := joinedOpt allWarnings,
         isRequired := false })

/-- The `metadata-conversion` executor; on success it also writes
`state := completed` into the store, exactly as the source does. -/
def metadataConversionExec (env : AnalysisEnv) (s : AnalysisState) :
    AnalysisState × CheckResult :=
  match s.repoInfo with
  | none =>
    (s,
     { id := "metadata-conversion", name := "Convert to software metadata",
       description := "Generating software metadata from available sources",
       status := .failed,
       error := some "Repository information is required for metadata conversion",
       isRequired := true })
  | some repoInfo =>
    match s.toolYaml with
    | none =>
      (s,
       { id := "metadata-conversion", name := "Convert to software metadata",
         description := "Generating software metadata from available sources",
         status := .failed,
         error := some "Tool specification is required for metadata conversion",
         isRequired := true })
    | some toolYaml =>
      let licenseInfo : Option LicenseCheckData :=
        match getCheck "license-check" s.checks with
        | some cr =>
          match cr.data with
          | some (.license d) => some d
          | _ => none
        | none => none
      let unifiedMetadata :=
        createUnifiedMetadata repoInfo toolYaml s.citationCff licenseInfo none none env.nowIso
      let exportedData := codemetaExport unifiedMetadata
      ({ s with metadata := some unifiedMetadata, progress := 100, state := .completed },
       { id := "metadata-conversion", name := "Convert to software metadata",
         description := "Generating software metadata from available sources",
         status := .completed,
         data := some (.conversion unifiedMetadata exportedData.length),
         isRequired := true })

/-- A declared check: its metadata and its executor. -/
structure Check where
  info : CheckInfo
  executor : AnalysisEnv → AnalysisState → AnalysisState × CheckResult

/-- The six checks in declared execution order (the source's `checks`
array). -/
def checksList : List Check :=
  [⟨⟨"repo-exists", "Repository exists and is public",
      "Validating repository URL and accessibility", true⟩, repoExistsExec⟩,
   ⟨⟨"tool-yaml-exists", "tool.yml file exists",
      "Checking for tool.yml in src directory", true⟩, toolYamlExistsExec⟩,
   ⟨⟨"tool-yaml-valid", "tool.yml is valid and compliant",
      "Validating tool.yml structure and content", true⟩, toolYamlValidExec⟩,
   ⟨⟨"citation-cff-exists", "CITATION.cff file exists and is valid",
      "Checking for CITATION.cff in repository root and parsing content", false⟩,
     citationCffExistsExec⟩,
   ⟨⟨"license-check", "LICENSE file check",
      "Checking for LICENSE file and comparing with CITATION.cff license", false⟩,
     licenseCheckExec⟩,
   ⟨⟨"metadata-conversion", "Convert to software metadata",
      "Generating software metadata from available sources", true⟩,
     metadataConversionExec⟩]

/-- The reset state `startAnalysis` installs. -/
def initialAnalysisState (repoUrl : String) : AnalysisState :=
  { state := .analyzing, repoUrl := repoUrl, repoInfo := none, checks := [],
    currentCheck := none, progress := 0, toolYaml := none, citationCff := none,
    metadata := none, warnings := [], errors := [], canCancel := true,
    canRetry := false }

/-- Seed every check as `pending` before execution begins. -/
def seedChecks (s : AnalysisState) : AnalysisState :=
  { s with checks := checksList.map (fun c => (c.info.id,
    { id := c.info.id, name := c.info.name, description := c.info.description,
      status := .pending, isRequired := c.info.isRequired : CheckResult })) }

/-- Mark a check `running` (if present). -/
def markRunning (id : String) (s : AnalysisState) : AnalysisState :=
  { s with checks := match getCheck id s.checks with
    | some cr => setCheck id { cr with status := .running } s.checks
    | none => s.checks }

/-- Merge an executor's result: store it and append its warning/error
strings to the global ordered lists. -/
def mergeCheckResult (id : String) (result : CheckResult) (s : AnalysisState) :
    AnalysisState :=
  { s with
    checks := setCheck id result s.checks
    warnings := s.warnings ++ (match result.warning with | some w => [w] | none => [])
    errors := s.errors ++ (match result.error with | some e => [e] | none => []) }

/-- The required-check-failure stop: `error` state, retry affordance. -/
def stopOnError (s : AnalysisState) : AnalysisState :=
  { s with state := .error, canCancel := false, canRetry := true }

/-- `cancelAnalysis`: the externally-invokable cancel update. -/
def cancelAnalysis (s : AnalysisState) : AnalysisState :=
  { s with state := .cancelled, canCancel := false, canRetry := true }

/-- The sequential check loop.  `cancelAt i` says whether the external
`cancelAnalysis` update lands between iterations, right before the `i`-th
check is processed (the loop itself never consults the run state, exactly as
in the source). -/
def runChecksLoop (env : AnalysisEnv) (cancelAt : Nat → Bool) :
    List Check → Nat → AnalysisState → AnalysisState
  | [], _, s => s
  | c :: rest, i, s =>
    let s0 := if cancelAt i then cancelAnalysis s else s
    let s1 := { s0 with currentCheck := some c.info.id }
    let s2 := markRunning c.info.id s1
    let res := c.executor env s2
    let s4 := mergeCheckResult c.info.id res.2 res.1
    if res.2.status = .failed ∧ res.2.isRequired then stopOnError s4
    else runChecksLoop env cancelAt rest (i + 1) s4

/-- `startAnalysis` under a cancellation schedule. -/
def startAnalysisWith (env : AnalysisEnv) (cancelAt : Nat → Bool)
    (repoUrl : String) : AnalysisState :=
  runChecksLoop env cancelAt checksList 0 (seedChecks (initialAnalysisState repoUrl))

/-- `startAnalysis` with no cancel request during the run. -/
def startAnalysis (env : AnalysisEnv) (repoUrl : String) : AnalysisState :=
  startAnalysisWith env (fun _ => false) repoUrl

/-- The state after the first `k` loop iterations (same seeding and
cancellation schedule). -/
def analysisAfter (env : AnalysisEnv) (cancelAt : Nat → Bool) (k : Nat)
    (repoUrl : String) : AnalysisState :=
  runChecksLoop env cancelAt (checksList.take k) 0 (seedChecks (initialAnalysisState repoUrl))

/-- Status of a check in a state, by id. -/
def checkStatusOf (s : AnalysisState) (id : String) : Option CheckStatus :=
  (getCheck id s.checks).map (·.status)

/-! ## Concrete sample data (used by witnesses and counterexamples) -/

/-- A concrete resolved repository (the spec's `owner/repo` Python scenario). -/
def sampleRepoInfo : GitHubRepoInfo :=
  { owner := "owner", name := "repo", fullName := "owner/repo",
    description := some "A sample tool repository.", language := some "Python",
    stars := 1, createdAt := "2024-01-01T00:00:00Z",
    updatedAt := "2024-02-01T00:00:00Z",
    cloneUrl := "https://github.com/owner/repo.git",
    htmlUrl := "https://github.com/owner/repo" }

/-- A concrete validated tool spec with one float parameter. -/
def sampleToolSpec : ToolSpec :=
  { title := "MyTool", description := "Does X.",
    parameters := some [("threshold",
      { type := "float", min := some 0, max := some 1, default := some (.num 0) })],
    data := none }

/-- A run environment where the repository resolves, `src/tool.yml` exists
and validates, and CITATION.cff / LICENSE are absent. -/
def sampleEnv : AnalysisEnv :=
  { repoResult := .ok sampleRepoInfo
    fileExists := fun f => f == "src/tool.yml"
    fileContent := fun f =>
      if f == "src/tool.yml" then .ok "tools: mytool"
      else .error ("File " ++ f ++ " not found")
    validateToolSpec := fun _ => ⟨true, some sampleToolSpec, [], []⟩
    citeParse := fun _ => none
    yamlLoad := fun _ => .error "bad yaml"
    nowIso := "2024-03-01T00:00:00.000Z" }

/-- The same environment with `src/tool.yml` missing. -/
def sampleEnvNoToolYml : AnalysisEnv :=
  { sampleEnv with fileExists := fun _ => false }

/-- The unified metadata of the sample scenario. -/
def sampleMetadata : UnifiedSoftwareMetadata :=
  createUnifiedMetadata sampleRepoInfo sampleToolSpec none none none none
    "2024-03-01T00:00:00.000Z"

/-- A Galaxy configuration whose command is the empty string. -/
def sampleGalaxyConfigEmptyCmd : GalaxyExportConfig :=
  { command := some "", outputs := [] }

/-- The CWL type mapping as the specification words it (for comparison with
the source's `mapToolSpecTypeToCwl`): base mapping per type, then a null
union whenever `optional=true`, then an array wrap whenever `array=true`. -/
def specCwlTypeMap (paramDef : ToolSpecParameter) : CwlTypeVal :=
  let base : CwlTypeVal :=
    if paramDef.type = "string" then .name "string"
    else if paramDef.type = "integer" then .name "int"
    else if paramDef.type = "float" then .name "float"
    else if paramDef.type = "boolean" then .name "boolean"
    else if paramDef.type = "enum" then .enumObj (paramDef.values.getD [])
    else if paramDef.type = "asset" then .name "File"
    else .name "string"
  let withNull : CwlTypeVal :=
    if paramDef.optional then .list [.name "null", base] else base
  if paramDef.array then .arrayObj withNull else withNull

/-- An optional enum parameter (the input separating the source mapping from
the specification's wording). -/
def sampleEnumOptionalParam : ToolSpecParameter :=
  { type := "enum", values := some ["a", "b"], optional := true }

/-! ## Helper lemmas: substring containment -/

theorem startsWithList_append (pat rest : List Char) :
    startsWithList pat (pat ++ rest) = true := by
  induction pat with
  | nil => simp [startsWithList]
  | cons c t ih => simp [startsWithList, ih]

theorem startsWithList_iff (pat : List Char) : ∀ l : List Char,
    startsWithList pat l = true ↔ ∃ rest, l = pat ++ rest := by
  induction pat with
  | nil => intro l; simp [startsWithList]
  | cons c t ih =>
    intro l
    cases l with
    | nil => simp [startsWithList]
    | cons d rest =>
      simp only [startsWithList, Bool.and_eq_true, beq_iff_eq, ih rest]
      constructor
      · rintro ⟨rfl, r, rfl⟩
        exact ⟨r, rfl⟩
      · rintro ⟨r, hr⟩
        injection hr with h1 h2
        exact ⟨h1.symm, r, h2⟩

theorem containsList_of_startsWith (pat l : List Char)
    (h : startsWithList pat l = true) : containsList pat l = true := by
  cases l with
  | nil => simpa [containsList] using h
  | cons c rest => simp [containsList, h]

theorem containsList_append_left (a pat l : List Char)
    (h : containsList pat l = true) : containsList pat (a ++ l) = true := by
  induction a with
  | nil => simpa using h
  | cons c t ih => simp [containsList, ih]

theorem containsList_middle (x pat y : List Char) :
    containsList pat (x ++ pat ++ y) = true := by
  rw [List.append_assoc]
  exact containsList_append_left x pat (pat ++ y)
    (containsList_of_startsWith _ _ (startsWithList_append pat y))

theorem containsList_iff (pat : List Char) : ∀ l : List Char,
    containsList pat l = true ↔ ∃ x y, l = x ++ pat ++ y := by
  intro l
  induction l with
  | nil =>
    simp only [containsList]
    constructor
    · intro h
      rcases (startsWithList_iff pat []).mp h with ⟨rest, hr⟩
      rcases List.append_eq_nil.mp hr.symm with ⟨h1, h2⟩
      exact ⟨[], [], by simp [h1, h2]⟩
    · rintro ⟨x, y, hxy⟩
      rcases List.append_eq_nil.mp hxy.symm with ⟨h1, h2⟩
      rcases List.append_eq_nil.mp h1 with ⟨h3, h4⟩
      rw [h4]
      simp [startsWithList]
  | cons c rest ih =>
    simp only [containsList, Bool.or_eq_true]
    constructor
    · intro h
      cases h with
      | inl h =>
        rcases (startsWithList_iff pat (c :: rest)).mp h with ⟨r, hr⟩
        exact ⟨[], r, by simpa using hr⟩
      | inr h =>
        rcases ih.mp h with ⟨x, y, hxy⟩
        exact ⟨c :: x, y, by simp [hxy]⟩
    · rintro ⟨x, y, hxy⟩
      cases x with
      | nil =>
        left
        simp only [List.nil_append] at hxy
        rw [hxy]
        exact startsWithList_append pat y
      | cons cx tx =>
        right
        simp only [List.cons_append] at hxy
        injection hxy with h1 h2
        exact ih.mpr ⟨tx, y, h2⟩

theorem strIncludes_of_data (s pat : String) (x y : List Char)
    (h : s.data = x ++ pat.data ++ y) : strIncludes s pat = true := by
  unfold strIncludes
  rw [h]
  exact containsList_middle x pat.data y

theorem strIncludes_middle (a p b : String) : strIncludes (a ++ p ++ b) p = true := by
  apply strIncludes_of_data _ _ a.data b.data
  simp [String.data_append]

theorem containsList_map (f : Char → Char) (pat l : List Char)
    (h : containsList pat l = true) :
    containsList (pat.map f) (l.map f) = true := by
  rcases (containsList_iff pat l).mp h with ⟨x, y, hxy⟩
  apply (containsList_iff (pat.map f) (l.map f)).mpr
  exact ⟨x.map f, y.map f, by simp [hxy]⟩

/-! ## Helper lemmas: jsDedup -/

theorem jsDedup_sublist (l : List String) : List.Sublist (jsDedup l) l := by
  unfold jsDedup
  have h2 := List.Sublist.map Prod.snd
    (List.filter_sublist (l := l.enum) (p := fun p => decide (l.indexOf p.2 = p.1)))
  rwa [List.enum_map_snd] at h2

theorem jsDedup_nodup (l : List String) : (jsDedup l).Nodup := by
  unfold jsDedup
  have henum : l.enum.Nodup := by
    apply List.Nodup.of_map Prod.fst
    rw [List.enum_map_fst]
    exact List.nodup_range _
  apply List.Nodup.map_on _ (List.Nodup.filter _ henum)
  intro x hx y hy hxy
  have hx' := (List.mem_filter.mp hx).2
  have hy' := (List.mem_filter.mp hy).2
  have hx2 : l.indexOf x.2 = x.1 := by simpa using hx'
  have hy2 : l.indexOf y.2 = y.1 := by simpa using hy'
  have : x.1 = y.1 := by rw [← hx2, ← hy2, hxy]
  exact Prod.ext this hxy

theorem jsDedup_mem (l : List String) (x : String) : x ∈ jsDedup l ↔ x ∈ l := by
  constructor
  · intro h
    exact (jsDedup_sublist l).mem h
  · intro h
    unfold jsDedup
    apply List.mem_map.mpr
    refine ⟨(l.indexOf x, x), ?_, rfl⟩
    apply List.mem_filter.mpr
    refine ⟨?_, by simp⟩
    exact (List.mem_enum_iff_getElem?).mpr (List.getElem?_indexOf h)

/-! ## Claim C6: compareLicenses behavior -/

theorem lowerIncludesMit (t : String) (h : strIncludes t "MIT License" = true) :
    strIncludes (jsToLowerCase t) "mit" = true := by
  unfold strIncludes at h ⊢
  have hmap := containsList_map Char.toLower _ _ h
  have hlit : "MIT License".data.map Char.toLower = "mit license".data := by decide
  rw [hlit] at hmap
  have hlower : (jsToLowerCase t).data = t.data.map Char.toLower := rfl
  rw [hlower]
  rcases (containsList_iff _ _).mp hmap with ⟨x, y, hxy⟩
  apply (containsList_iff _ _).mpr
  have hsplit : "mit license".data = "mit".data ++ " license".data := by decide
  exact ⟨x, " license".data ++ y, by rw [hxy, hsplit]; simp⟩

/-- C6: `compareLicenses` with both sides absent is compatible with exactly
one both-missing warning; a CFF `"MIT"` against a LICENSE text containing
`"MIT License"` is compatible with no warning at all; and any present pair
whose LICENSE text matches none of the fixed license families is compatible
with only the could-not-detect warning (never a mismatch); presence is the
source's JS truthiness (`""` counts as absent). -/
theorem C6_compareLicenses_behavior :
    (compareLicenses none "" =
      ⟨true, ["No license information found in either CITATION.cff or LICENSE file"]⟩)
    ∧ (∀ t : String, strIncludes t "MIT License" = true →
        compareLicenses (some (.one "MIT")) t = ⟨true, []⟩)
    ∧ (∀ (lic : LicenseVal) (t : String), licTruthy (some lic) = true → t ≠ "" →
        (∀ fam ∈ commonLicenses, strIncludes (jsToLowerCase t) fam = false) →
        compareLicenses (some lic) t =
          ⟨true, ["Could not detect license type from LICENSE file content"]⟩) := by
  refine ⟨rfl, ?_, ?_⟩
  · intro t h
    have ht : t ≠ "" := by
      intro he
      rw [he] at h
      exact absurd h (by decide)
    have hmit := lowerIncludesMit t h
    have hfind : commonLicenses.find? (fun l => strIncludes (jsToLowerCase t) l) =
        some "mit" := by
      have : commonLicenses = "mit" :: ["apache", "gpl", "bsd", "mozilla",
          "eclipse", "unlicense", "cc0"] := rfl
      rw [this]
      exact List.find?_cons_of_pos _ hmit
    unfold compareLicenses
    rw [if_neg (by simp [licTruthy]), if_neg (by simp [licTruthy]),
      if_neg (by simp [ht])]
    simp only [hfind]
    decide
  · intro lic t hlic ht hall
    have hfind : commonLicenses.find? (fun l => strIncludes (jsToLowerCase t) l) =
        none := by
      apply List.find?_eq_none.mpr
      intro x hx
      simp [hall x hx]
    unfold compareLicenses
    rw [if_neg (by simp [hlic]), if_neg (by simp [hlic]), if_neg (by simp [ht])]
    simp only [hfind]
    rfl

theorem C6_compareLicenses_behavior_witness :
    compareLicenses (some (.one "MIT")) "Released under the MIT License." = ⟨true, []⟩
    ∧ compareLicenses (some (.one "Custom-1.0")) "all rights reserved" =
      ⟨true, ["Could not detect license type from LICENSE file content"]⟩ :=
  ⟨C6_compareLicenses_behavior.2.1 "Released under the MIT License." (by decide),
   C6_compareLicenses_behavior.2.2 (.one "Custom-1.0") "all rights reserved"
     (by decide) (by decide) (by decide)⟩

/-! ## Claim C5: the citation parser is total and reports parse failures -/

theorem parseCitationCffPrimary_isValid_iff (parsed : JsVal) :
    (parseCitationCffPrimary parsed).isValid = true ↔
    (parseCitationCffPrimary parsed).errors = [] := by
  unfold parseCitationCffPrimary
  split
  next => simp
  next =>
    cases hm : jsMapAuthors (parsed.get "author") primaryAuthor with
    | error e => simp [hm]
    | ok a =>
      cases hd : datePartsJoin (parsed.get "issued") with
      | error e => simp [hm, hd]
      | ok d => simp [hm, hd, List.isEmpty_iff]

theorem parseCitationCffManually_isValid_iff
    (yamlLoad : String → Except String JsVal) (yamlContent : String) :
    (parseCitationCffManually yamlLoad yamlContent).isValid = true ↔
    (parseCitationCffManually yamlLoad yamlContent).errors = [] := by
  unfold parseCitationCffManually
  cases hy : yamlLoad yamlContent with
  | error e => simp [hy]
  | ok parsed =>
    simp only [hy]
    unfold parseCitationCffManualBody
    split
    next => simp
    next =>
      cases hm : jsMapAuthors (parsed.get "authors") manualAuthor with
      | error e => simp [hm]
      | ok a => simp [hm, List.isEmpty_iff]

/-- C5: `parseCitationCff` is a total function into the result record (so it
never throws); `isValid` is true exactly when the error list is empty on
every path; and when the citation-js path throws and the YAML fallback also
throws, the result is invalid with a null record and exactly the converted
parse error. -/
theorem C5_parseCitationCff_total :
    (∀ (citeParse : String → Option JsVal) (yamlLoad : String → Except String JsVal)
      (input msg : String),
      citeParse input = none → yamlLoad input = .error msg →
      parseCitationCff citeParse yamlLoad input =
        ⟨false, none, ["Manual parsing error: " ++ msg], []⟩)
    ∧ (∀ (citeParse : String → Option JsVal) (yamlLoad : String → Except String JsVal)
      (input : String),
      (parseCitationCff citeParse yamlLoad input).isValid = true ↔
      (parseCitationCff citeParse yamlLoad input).errors = []) := by
  constructor
  · intro citeParse yamlLoad input msg h1 h2
    unfold parseCitationCff
    rw [h1]
    unfold parseCitationCffManually
    rw [h2]
  · intro citeParse yamlLoad input
    unfold parseCitationCff
    split
    · exact parseCitationCffManually_isValid_iff yamlLoad input
    · exact parseCitationCffPrimary_isValid_iff _

theorem C5_parseCitationCff_total_witness :
    parseCitationCff (fun _ => none) (fun _ => .error "boom") "not yaml" =
      ⟨false, none, ["Manual parsing error: boom"], []⟩ :=
  C5_parseCitationCff_total.1 (fun _ => none) (fun _ => .error "boom")
    "not yaml" "boom" rfl rfl

/-! ## Claim C7: the CWL parameter type mapping -/

/-- C7 counterexample: for an optional enum parameter the source mapping
returns the bare enum object — not the null union the claim requires for
every `optional=true` parameter — so the claim as stated fails here. -/
theorem C7_enum_optional_counterexample :
    mapToolSpecTypeToCwl sampleEnumOptionalParam = .enumObj ["a", "b"]
    ∧ specCwlTypeMap sampleEnumOptionalParam =
      .list [.name "null", .enumObj ["a", "b"]]
    ∧ (∀ b : CwlTypeVal,
        mapToolSpecTypeToCwl sampleEnumOptionalParam ≠ .list [.name "null", b]) :=
  ⟨rfl, rfl, fun b h => CwlTypeVal.noConfusion
    (show CwlTypeVal.enumObj ["a", "b"] = CwlTypeVal.list [.name "null", b] from h)⟩

/-- C7 (amended): the base mapping is string→string, integer→int,
float→float, boolean→boolean, asset→File, enum→`{type: enum, symbols}`;
the null-union wrap for `optional=true` and the array wrap for `array=true`
apply only to non-enum parameters — an enum parameter returns its enum
object directly, bypassing both wraps. -/
theorem C7_cwl_type_mapping_amended :
    ∀ paramDef : ToolSpecParameter,
      mapToolSpecTypeToCwl paramDef =
        (if paramDef.type = "enum" then CwlTypeVal.enumObj (paramDef.values.getD [])
         else specCwlTypeMap paramDef) := by
  intro p
  by_cases h : p.type = "enum"
  · simp [mapToolSpecTypeToCwl, specCwlTypeMap, h]
  · simp only [mapToolSpecTypeToCwl, specCwlTypeMap, h, if_false]
    split_ifs <;> rfl

/-! ## Claim C4: Galaxy export/validate with an empty command -/

theorem buildToolXmlPre_split (a b c d e f : String) :
    buildToolXmlPre a b c d e f =
      ("<?xml version=\"1.0\"?>\n<tool id=\"" ++ sanitizeXml a ++ "\" name=\"" ++
       sanitizeXml b ++ "\" version=\"" ++ sanitizeXml c ++ "\" profile=\"" ++
       sanitizeXml d ++ "\">\n    <description>" ++ sanitizeXml e ++
       "</description>\n    <help>" ++ sanitizeXml f ++ "</help>\n    ") ++
      "<command" := by
  unfold buildToolXmlPre
  have hlit : ("</help>\n    <command" : String) = "</help>\n    " ++ "<command" := rfl
  rw [hlit]
  simp [String.append_assoc]

theorem strIncludes_emptyCommand (H post : String) :
    strIncludes ((H ++ "<command") ++ "" ++ ">" ++ "" ++ "</command>" ++ post)
      "<command></command>" = true := by
  apply strIncludes_of_data _ _ H.data post.data
  have hp : ("<command></command>" : String).data =
      ("<command" : String).data ++ ((">" : String).data ++ ("</command>" : String).data) := by
    decide
  have h0 : ("" : String).data = [] := rfl
  simp only [String.data_append, hp, h0, List.append_nil, List.append_assoc]
  simp [List.cons_append]

/-- C4: for any metadata and any Galaxy config whose command is the empty
string, `validate` reports "Command is required for Galaxy export" while
`export` still succeeds and its XML contains an empty `<command>` element;
`export` raises only when no Galaxy configuration exists at all. -/
theorem C4_galaxy_empty_command :
    (∀ (data : UnifiedSoftwareMetadata) (config : GalaxyExportConfig),
      config.command = some "" →
      ("Command is required for Galaxy export" ∈ galaxyValidate data (some config))
      ∧ ∃ xml, galaxyExport data (some config) = .ok xml
          ∧ strIncludes xml "<command></command>" = true)
    ∧ (∀ data : UnifiedSoftwareMetadata, data.galaxyConfig = none →
        galaxyExport data none = .error "Galaxy configuration is required for export") := by
  constructor
  · intro data config h
    have hcmd : orStr config.command "" = "" := by rw [h]; rfl
    constructor
    · simp only [galaxyValidate, hcmd]
      simp
      exact Or.inr (Or.inl (by rw [hcmd]; rfl))
    · refine ⟨_, rfl, ?_⟩
      have hint : galaxyCommandInterpAttr "" = "" := rfl
      have hsan : sanitizeXml "" = "" := rfl
      rw [hcmd, hint, hsan, buildToolXmlPre_split]
      exact strIncludes_emptyCommand _ _
  · intro data h
    simp [galaxyExport, h]

/-! ## Claim C8: unified-metadata keyword assembly -/

/-- C8: the keywords of the unified record are exactly the JS-deduplicated
concatenation of the `"tool-spec"` tag (present iff a parameters section
exists), the citation keywords, and the lowercased repository language;
the dedup keeps first occurrences in order (the output has no duplicates, is
an order-preserving sublist of the input, and keeps exactly the input's
elements); the sample Python repository yields both `"tool-spec"` and
`"python"`. -/
theorem C8_unified_keywords :
    (∀ (repoInfo : GitHubRepoInfo) (toolSpec : ToolSpec)
      (citationCff : Option CitationCff) (licenseInfo : Option LicenseCheckData)
      (dockerfileCmd repositoryVersion : Option String) (nowIso : String),
      (createUnifiedMetadata repoInfo toolSpec citationCff licenseInfo
        dockerfileCmd repositoryVersion nowIso).keywords =
        jsDedup ((if toolSpec.parameters.isSome then ["tool-spec"] else []) ++
          (match citationCff with
           | some c => c.keywords.getD []
           | none => []) ++
          (match repoInfo.language with
           | some l => if l = "" then [] else [jsToLowerCase l]
           | none => [])))
    ∧ (∀ l : List String, (jsDedup l).Nodup)
    ∧ (∀ l : List String, List.Sublist (jsDedup l) l)
    ∧ (∀ (l : List String) (x : String), x ∈ jsDedup l ↔ x ∈ l)
    ∧ ("tool-spec" ∈ sampleMetadata.keywords ∧ "python" ∈ sampleMetadata.keywords) :=
  ⟨fun _ _ _ _ _ _ _ => rfl, jsDedup_nodup, jsDedup_sublist, jsDedup_mem,
   by decide, by decide⟩

/-! ## Claim C9: exporters are pure functions of their inputs -/

/-- C9: every exporter's `export` is a pure function of the metadata record
and the per-format configuration (plus its fixed external serializer
oracles), so two calls with the same inputs produce byte-identical output —
and, the metadata being a value of the embedding, no call mutates it. -/
theorem C9_exporters_pure :
    ∀ (m : UnifiedSoftwareMetadata) (gc : Option GalaxyExportConfig)
      (dc : Option DoapConfig) (cc : Option CwlExportConfig)
      (dump : JVal → String) (jsDateToIso : String → Option String),
      codemetaExport m = codemetaExport m
      ∧ galaxyExport m gc = galaxyExport m gc
      ∧ doapExport m dc = doapExport m dc
      ∧ cwlExport dump m cc = cwlExport dump m cc
      ∧ schemaOrgExport jsDateToIso m = schemaOrgExport jsDateToIso m :=
  fun _ _ _ _ _ _ => ⟨rfl, rfl, rfl, rfl, rfl⟩

/-! ## Claim C10: checkFileExists is total and collapses errors to false -/

/-- C10: the existence test returns `true` exactly when the content request
resolves with an ok response, and returns `false` whenever the transport
throws — a network failure is indistinguishable from an absent file. -/
theorem C10_checkFileExists_total :
    ∀ (fetch : String → Except String FetchResponse) (repoInfo : GitHubRepoInfo)
      (filename : String),
      (checkFileExists fetch repoInfo filename = true ↔
        ∃ r, fetch (contentsUrl repoInfo.owner repoInfo.name filename) = .ok r
          ∧ r.ok = true)
      ∧ (∀ e, fetch (contentsUrl repoInfo.owner repoInfo.name filename) = .error e →
          checkFileExists fetch repoInfo filename = false) := by
  intro fetch repoInfo filename
  constructor
  · unfold checkFileExists
    cases hf : fetch (contentsUrl repoInfo.owner repoInfo.name filename) with
    | ok r =>
      simp only [hf]
      constructor
      · intro h
        exact ⟨r, rfl, h⟩
      · rintro ⟨r2, hr2, hok⟩
        injection hr2 with he
        rw [← he] at hok
        exact hok
    | error e =>
      simp [hf]
  · intro e he
    unfold checkFileExists
    rw [he]

theorem C10_checkFileExists_total_witness :
    checkFileExists (fun _ => .error "network unreachable") sampleRepoInfo
      "src/tool.yml" = false :=
  (C10_checkFileExists_total (fun _ => .error "network unreachable")
    sampleRepoInfo "src/tool.yml").2 "network unreachable" rfl
/-! ## Claim C2: a required-check failure short-circuits the pipeline -/

/-- C2: whenever a check's result is failed and required, the loop stops at
the stop-on-error update without ever touching the remaining checks; in
particular, when the tool.yml-existence check fails, the four subsequent
checks keep their seeded `pending` results and the run ends in `error` with
the retry affordance enabled. -/
theorem C2_required_failure_short_circuits :
    (∀ (env : AnalysisEnv) (cancelAt : Nat → Bool) (i : Nat) (s : AnalysisState)
      (c : Check) (rest : List Check) (res : AnalysisState × CheckResult),
      c.executor env (markRunning c.info.id
        { (if cancelAt i then cancelAnalysis s else s) with
          currentCheck := some c.info.id }) = res →
      res.2.status = .failed → res.2.isRequired = true →
      runChecksLoop env cancelAt (c :: rest) i s =
        stopOnError (mergeCheckResult c.info.id res.2 res.1))
    ∧ (∀ (env : AnalysisEnv) (info : GitHubRepoInfo) (repoUrl : String),
      env.repoResult = .ok info →
      env.fileExists "src/tool.yml" = false →
      checkStatusOf (startAnalysis env repoUrl) "repo-exists" = some .completed
      ∧ checkStatusOf (startAnalysis env repoUrl) "tool-yaml-exists" = some .failed
      ∧ checkStatusOf (startAnalysis env repoUrl) "tool-yaml-valid" = some .pending
      ∧ checkStatusOf (startAnalysis env repoUrl) "citation-cff-exists" = some .pending
      ∧ checkStatusOf (startAnalysis env repoUrl) "license-check" = some .pending
      ∧ checkStatusOf (startAnalysis env repoUrl) "metadata-conversion" = some .pending
      ∧ (startAnalysis env repoUrl).state = .error
      ∧ (startAnalysis env repoUrl).canRetry = true
      ∧ (startAnalysis env repoUrl).canCancel = false) := by
  constructor
  · intro env cancelAt i s c rest res hres h1 h2
    simp only [runChecksLoop, hres]
    rw [if_pos ⟨h1, h2⟩]
  · intro env info repoUrl h1 h2
    simp [startAnalysis, startAnalysisWith, runChecksLoop, checksList, seedChecks,
      initialAnalysisState, markRunning, mergeCheckResult, stopOnError,
      repoExistsExec, toolYamlExistsExec, getCheck, setCheck, checkStatusOf,
      h1, h2, joinedOpt, List.find?]

theorem C2_required_failure_short_circuits_witness :
    checkStatusOf (startAnalysis sampleEnvNoToolYml "owner/repo")
      "metadata-conversion" = some .pending
    ∧ (startAnalysis sampleEnvNoToolYml "owner/repo").state = .error :=
  ⟨(C2_required_failure_short_circuits.2 sampleEnvNoToolYml sampleRepoInfo
      "owner/repo" rfl rfl).2.2.2.2.2.1,
   (C2_required_failure_short_circuits.2 sampleEnvNoToolYml sampleRepoInfo
      "owner/repo" rfl rfl).2.2.2.2.2.2.1⟩

/-! ## Claim C3: an optional-check failure does not halt the pipeline -/

/-- C3: when the repository resolves, `src/tool.yml` exists and validates,
and `CITATION.cff` is absent (so the optional citation check fails), the
LICENSE check still executes (it completes, or fails only if its own content
fetch throws), the metadata-conversion check still executes and completes,
the failed check's warning is appended to the global warning list, and the
final state is `completed`. -/
theorem C3_optional_citation_failure_continues :
    ∀ (env : AnalysisEnv) (info : GitHubRepoInfo) (ts : ToolSpec)
      (yam : String) (errs warns : List String) (repoUrl : String),
      env.repoResult = .ok info →
      env.fileExists "src/tool.yml" = true →
      env.fileContent "src/tool.yml" = .ok yam →
      env.validateToolSpec yam = ⟨true, some ts, errs, warns⟩ →
      env.fileExists "CITATION.cff" = false →
      ("CITATION.cff file is missing (optional but recommended)" ∈
        (startAnalysis env repoUrl).warnings)
      ∧ checkStatusOf (startAnalysis env repoUrl) "citation-cff-exists" = some .failed
      ∧ (checkStatusOf (startAnalysis env repoUrl) "license-check" = some .completed
         ∨ checkStatusOf (startAnalysis env repoUrl) "license-check" = some .failed)
      ∧ checkStatusOf (startAnalysis env repoUrl) "metadata-conversion" = some .completed
      ∧ (startAnalysis env repoUrl).state = .completed := by
  intro env info ts yam errs warns repoUrl h1 h2 h3 h4 h5
  cases hlic : env.fileExists "LICENSE" with
  | false =>
    simp [startAnalysis, startAnalysisWith, runChecksLoop, checksList, seedChecks,
      initialAnalysisState, markRunning, mergeCheckResult, stopOnError,
      repoExistsExec, toolYamlExistsExec, toolYamlValidExec, citationCffExistsExec,
      licenseCheckExec, metadataConversionExec, getCheck, setCheck, checkStatusOf,
      h1, h2, h3, h4, h5, hlic, joinedOpt, List.find?]
  | true =>
    cases hcont : env.fileContent "LICENSE" with
    | ok content =>
      simp [startAnalysis, startAnalysisWith, runChecksLoop, checksList, seedChecks,
        initialAnalysisState, markRunning, mergeCheckResult, stopOnError,
        repoExistsExec, toolYamlExistsExec, toolYamlValidExec, citationCffExistsExec,
        licenseCheckExec, metadataConversionExec, getCheck, setCheck, checkStatusOf,
        h1, h2, h3, h4, h5, hlic, hcont, joinedOpt, List.find?]
    | error msg =>
      simp [startAnalysis, startAnalysisWith, runChecksLoop, checksList, seedChecks,
        initialAnalysisState, markRunning, mergeCheckResult, stopOnError,
        repoExistsExec, toolYamlExistsExec, toolYamlValidExec, citationCffExistsExec,
        licenseCheckExec, metadataConversionExec, getCheck, setCheck, checkStatusOf,
        h1, h2, h3, h4, h5, hlic, hcont, joinedOpt, List.find?]

theorem C3_optional_citation_failure_continues_witness :
    (startAnalysis sampleEnv "owner/repo").state = .completed
    ∧ checkStatusOf (startAnalysis sampleEnv "owner/repo") "metadata-conversion" =
      some .completed :=
  ⟨(C3_optional_citation_failure_continues sampleEnv sampleRepoInfo sampleToolSpec
      "tools: mytool" [] [] "owner/repo" rfl rfl rfl rfl rfl).2.2.2.2,
   (C3_optional_citation_failure_continues sampleEnv sampleRepoInfo sampleToolSpec
      "tools: mytool" [] [] "owner/repo" rfl rfl rfl rfl rfl).2.2.2.1⟩

/-! ## Claim C1: cancellation is never observed by the check loop -/

/-- C1 (failing-input evidence): in a run where every check succeeds and the
external cancel lands right before the second loop iteration, the state is
`cancelled` after that prefix — yet the orchestrator still starts and
completes every remaining check, and the run's final state is `completed`:
the loop never observes the cancelled flag, and `cancelled` is not
terminal. -/
theorem C1_cancellation_not_observed :
    ((analysisAfter sampleEnv (fun i => i == 1) 2 "owner/repo").state = .cancelled)
    ∧ (checkStatusOf (analysisAfter sampleEnv (fun i => i == 1) 2 "owner/repo")
        "tool-yaml-exists" = some .completed)
    ∧ ((startAnalysisWith sampleEnv (fun i => i == 1) "owner/repo").state = .completed)
    ∧ (checkStatusOf (startAnalysisWith sampleEnv (fun i => i == 1) "owner/repo")
        "tool-yaml-valid" = some .completed)
    ∧ (checkStatusOf (startAnalysisWith sampleEnv (fun i => i == 1) "owner/repo")
        "license-check" = some .completed)
    ∧ (checkStatusOf (startAnalysisWith sampleEnv (fun i => i == 1) "owner/repo")
        "metadata-conversion" = some .completed) := by
  refine ⟨?_, ?_, ?_, ?_, ?_, ?_⟩ <;> decide

theorem C4_galaxy_empty_command_witness :
    ("Command is required for Galaxy export" ∈
      galaxyValidate sampleMetadata (some sampleGalaxyConfigEmptyCmd))
    ∧ ∃ xml, galaxyExport sampleMetadata (some sampleGalaxyConfigEmptyCmd) = .ok xml
        ∧ strIncludes xml "<command></command>" = true :=
  C4_galaxy_empty_command.1 sampleMetadata sampleGalaxyConfigEmptyCmd rfl
